import Mathlib

/-!
Verification development for the ADF-Extractor repository (src/initiator.py).

The Python source is shallowly embedded: Python dictionaries become
association lists (Python dict keys are unique, so first-match lookup agrees
with dict lookup), Python `None`/falsiness is modelled explicitly, and code
that raises an exception is modelled with `Except` where a claim depends on
it.  External collaborators (the xlsxwriter/xlrd spreadsheet libraries, the
Django ORM, the file system) are out of scope per the specification; their
results are modelled as opaque tagged values where they appear.
-/

/-! ## Python primitive cell values

`PVal` models the Python values that flow through the Excel utilities:
strings, ints, bools, `None`, `datetime` objects produced by
`datetime.strptime` (`dt`), and the result of xlrd's serial-date conversion
(`xdate`, kept opaque: the calendar arithmetic lives in the external xlrd
library).  Floats, `Decimal` and `bytes` never appear in any claim and are
omitted. -/

structure PyDateTime where
  year : Nat
  month : Nat
  day : Nat
  hour : Nat
  minute : Nat
  second : Nat
  deriving DecidableEq, Repr

inductive PVal where
  | s (v : String)
  | i (n : Int)
  | b (v : Bool)
  | none
  | dt (d : PyDateTime)
  | xdate (serial : Int)
  deriving DecidableEq, Repr

/-- Python `==` between cell values: same-type structural equality, plus
`bool == int` coercion (Python's `bool` is an `int` subclass, `True == 1`).
Values of distinct kinds otherwise compare unequal (`"x" == None` is
`False`). -/
def pyEq : PVal → PVal → Bool
  | .s a, .s b => a = b
  | .i a, .i b => a = b
  | .b a, .b b => a = b
  | .i a, .b b => a = (if b then (1 : Int) else 0)
  | .b a, .i b => (if a then (1 : Int) else 0) = b
  | .none, .none => true
  | .dt a, .dt b => a = b
  | .xdate a, .xdate b => a = b
  | _, _ => false

/-! ## Styles and the Formatter class (src/initiator.py lines 276-331)

A Python style-instruction dictionary such as
`{"font_styles": ["bold"], "text_color": "black"}` is modelled as an
association list from the attribute name to a `StyleVal` (a string or a list
of strings, the only value shapes the program uses). -/

inductive StyleVal where
  | vs (s : String)
  | vl (l : List String)
  deriving DecidableEq, Repr

/-- A Python style dictionary (keyword arguments for `Formatter`). -/
abbrev Style := List (String × StyleVal)

/-- First-match lookup in an association list; agrees with Python dict
lookup because Python dict keys are unique. -/
def dlookup (l : Style) (k : String) : Option StyleVal :=
  match l with
  | [] => Option.none
  | (k', v) :: rest => if k = k' then some v else dlookup rest k

/-- Python `d[k] = v`: replace the first binding of `k` (dicts keep the key's
position) or append a new binding at the end. -/
def dset (l : Style) (k : String) (v : StyleVal) : Style :=
  match l with
  | [] => [(k, v)]
  | (k', v') :: rest => if k' = k then (k', v) :: rest else (k', v') :: dset rest k v

/-- `for k, v in upd.items(): base[k] = v` — overlay `upd` on `base`. -/
def overlay (base upd : Style) : Style :=
  upd.foldl (fun acc e => dset acc e.1 e.2) base

/-- A key of a tier dictionary: the program's own instruction builders use
string keys (`str(i)`), but a caller may supply integer keys. -/
inductive PyKey where
  | s (v : String)
  | i (v : Int)
  deriving DecidableEq, Repr

def PyKey.isInt : PyKey → Bool
  | .i _ => true
  | .s _ => false

/-- The three-tier formatting-instruction dictionary
(`{"row": {...}, "column": {...}, "cell": {...}}`).  A missing tier key and a
tier mapping to an empty dict are both falsy in Python and behave
identically, so both are represented by `[]`. -/
structure Instructions where
  row : List (PyKey × Style)
  column : List (PyKey × Style)
  cell : List ((PyKey × PyKey) × Style)
  deriving Repr

/-- First-match lookup in a tier. -/
def tlookup {κ : Type} [DecidableEq κ] (l : List (κ × Style)) (k : κ) : Option Style :=
  match l with
  | [] => Option.none
  | (k', v) :: rest => if k = k' then some v else tlookup rest k

/-- Python `tier.get(k)` followed by a truthiness test: a hit whose style
dict is empty is falsy and treated as no match. -/
def dgetT {κ : Type} [DecidableEq κ] (l : List (κ × Style)) (k : κ) : Option Style :=
  match tlookup l k with
  | some s => if s = ([] : Style) then Option.none else some s
  | Option.none => Option.none

/-- The `Formatter` object (src/initiator.py lines 276-294): five optional
style attributes, all defaulting to `None`.  The values are kept as the raw
`StyleVal` passed in — `Formatter.__init__` stores its keyword arguments
verbatim. -/
structure Formatter where
  cell_str_format : Option StyleVal
  font_styles : Option StyleVal
  cell_borders : Option StyleVal
  text_color : Option StyleVal
  bg_color : Option StyleVal
  deriving DecidableEq, Repr

/-- `Formatter()` with no arguments: the all-default style. -/
def Formatter.empty : Formatter :=
  ⟨Option.none, Option.none, Option.none, Option.none, Option.none⟩

/-- `Formatter(**kwargs)`.  Python raises `TypeError` on a keyword other
than the five parameters; the claims only quantify over style dicts using
those five names. -/
def Formatter.ofKwargs (kw : Style) : Formatter :=
  ⟨dlookup kw "cell_str_format", dlookup kw "font_styles", dlookup kw "cell_borders",
   dlookup kw "text_color", dlookup kw "bg_color"⟩

/-- Read a `Formatter` attribute by its Python name. -/
def Formatter.getField (f : Formatter) (name : String) : Option StyleVal :=
  if name = "cell_str_format" then f.cell_str_format
  else if name = "font_styles" then f.font_styles
  else if name = "cell_borders" then f.cell_borders
  else if name = "text_color" then f.text_color
  else if name = "bg_color" then f.bg_color
  else Option.none

namespace ExcelUtils

/-- `ExcelUtils._convert_instructions_to_formats` (src/initiator.py lines
663-724).  The row and column indices are converted to strings before any
lookup (`row_idx = str(row_idx)`).  When a cell-tier entry matches, the base
is the row-tier entry (column tier overlaid) or, absent a row entry, the
column entry alone, else the cell entry itself; the cell entry is overlaid
last.  Without a cell match the row entry (column overlaid) or the column
entry is used; otherwise the default `Formatter()`.  The source deep-copies
`instructions` before mutating; the pure model needs no copy.  `None`
instructions and an all-empty instructions dict are both falsy
(`if not instructions`). -/
def convert_instructions_to_formats (instructions : Option Instructions)
    (row_idx col_idx : Nat) : Formatter :=
  match instructions with
  | Option.none => Formatter.empty
  | some ins =>
    if ins.row.isEmpty && ins.column.isEmpty && ins.cell.isEmpty then Formatter.empty
    else
      let rk := PyKey.s (toString row_idx)
      let ck := PyKey.s (toString col_idx)
      let cellk := (rk, ck)
      match dgetT ins.cell cellk with
      | some cstyle =>
          let total :=
            match dgetT ins.row rk with
            | some rstyle =>
                (match dgetT ins.column ck with
                 | some colstyle => overlay rstyle colstyle
                 | Option.none => rstyle)
            | Option.none =>
                (match dgetT ins.column ck with
                 | some colstyle => colstyle
                 | Option.none => cstyle)
          Formatter.ofKwargs (overlay total cstyle)
      | Option.none =>
          match dgetT ins.row rk with
          | some rstyle =>
              Formatter.ofKwargs
                (match dgetT ins.column ck with
                 | some colstyle => overlay rstyle colstyle
                 | Option.none => rstyle)
          | Option.none =>
              match dgetT ins.column ck with
              | some colstyle => Formatter.ofKwargs colstyle
              | Option.none => Formatter.empty

end ExcelUtils

/-! ### Dictionary-update lemmas used by the cascade proofs -/

theorem dlookup_dset_self (t : Style) (k : String) (v : StyleVal) :
    dlookup (dset t k v) k = some v := by
  induction t with
  | nil => simp [dset, dlookup]
  | cons hd tl ih =>
      obtain ⟨k', v'⟩ := hd
      by_cases h : k' = k
      · subst h
        simp [dset, dlookup]
      · have h2 : ¬(k = k') := fun h' => h h'.symm
        simp [dset, dlookup, h, h2, ih]

theorem dlookup_dset_other (t : Style) (k k' : String) (v : StyleVal) (h : k' ≠ k) :
    dlookup (dset t k v) k' = dlookup t k' := by
  induction t with
  | nil => simp [dset, dlookup, h]
  | cons hd tl ih =>
      obtain ⟨k₀, v₀⟩ := hd
      by_cases hk : k₀ = k
      · subst hk
        simp [dset, dlookup, fun h' : k' = k₀ => h h']
      · simp [dset, dlookup, hk, ih]

theorem dlookup_overlay_notin (t : Style) (l : Style) (k : String)
    (h : ∀ e ∈ l, e.1 ≠ k) : dlookup (overlay t l) k = dlookup t k := by
  induction l generalizing t with
  | nil => rfl
  | cons hd tl ih =>
      obtain ⟨k₀, v₀⟩ := hd
      have hk : k₀ ≠ k := h ⟨k₀, v₀⟩ (List.mem_cons_self _ _)
      have step : overlay t ((k₀, v₀) :: tl) = overlay (dset t k₀ v₀) tl := rfl
      rw [step, ih (dset t k₀ v₀) (fun e he => h e (List.mem_cons_of_mem _ he)),
        dlookup_dset_other t k₀ k v₀ (fun h' => hk h'.symm)]

/-- A field defined by the overlaid dict wins: if `upd` binds `k` (uniquely)
then the overlay's value at `k` is `upd`'s value. -/
theorem dlookup_overlay_right (upd : Style) (k : String) (v : StyleVal) :
    ∀ t : Style, dlookup upd k = some v → (upd.map Prod.fst).Nodup →
      dlookup (overlay t upd) k = some v := by
  induction upd with
  | nil =>
      intro t hl _
      simp [dlookup] at hl
  | cons hd tl ih =>
      intro t hl hnd
      obtain ⟨k₀, v₀⟩ := hd
      rw [List.map_cons, List.nodup_cons] at hnd
      have step : overlay t ((k₀, v₀) :: tl) = overlay (dset t k₀ v₀) tl := rfl
      rw [step]
      by_cases hk : k = k₀
      · subst hk
        rw [dlookup] at hl
        simp at hl
        subst hl
        have hnotin : ∀ e ∈ tl, e.1 ≠ k := by
          intro e he hek
          have hmem : e.1 ∈ tl.map Prod.fst := List.mem_map_of_mem Prod.fst he
          exact hnd.1 (hek ▸ hmem)
        rw [dlookup_overlay_notin _ _ _ hnotin, dlookup_dset_self]
      · rw [dlookup] at hl
        simp [hk] at hl
        exact ih (dset t k₀ v₀) hl hnd.2

theorem dgetT_ne_nil {κ : Type} [DecidableEq κ] (l : List (κ × Style)) (k : κ) (s : Style)
    (h : dgetT l k = some s) : l ≠ [] := by
  intro hnil
  subst hnil
  simp [dgetT, tlookup] at h

theorem Formatter.getField_ofKwargs (kw : Style) (f : String)
    (hf : f = "cell_str_format" ∨ f = "font_styles" ∨ f = "cell_borders" ∨
      f = "text_color" ∨ f = "bg_color") :
    (Formatter.ofKwargs kw).getField f = dlookup kw f := by
  rcases hf with h | h | h | h | h <;> subst h <;> rfl

/-- C1: with a row-tier entry for row `R`, a column-tier entry for column
`C` and a cell-tier entry for `(R, C)` all defining the same style field
`f`, `_convert_instructions_to_formats` resolves `(R, C)` to a `Formatter`
whose value for `f` is the cell-tier's value: cell-tier beats column-tier
beats row-tier.  (Tier keys are the strings `str(R)`/`str(C)`, as built by
the program's own instruction constructors; the cell entry's keys are
unique, as Python dict keys always are.) -/
theorem convert_cell_tier_wins (ins : Instructions) (R C : Nat) (f : String)
    (sr scol sc : Style) (vr vc vcell : StyleVal)
    (hf : f = "cell_str_format" ∨ f = "font_styles" ∨ f = "cell_borders" ∨
      f = "text_color" ∨ f = "bg_color")
    (hr : dgetT ins.row (PyKey.s (toString R)) = some sr)
    (hc : dgetT ins.column (PyKey.s (toString C)) = some scol)
    (hcell : dgetT ins.cell (PyKey.s (toString R), PyKey.s (toString C)) = some sc)
    (hfr : dlookup sr f = some vr)
    (hfc : dlookup scol f = some vc)
    (hfcell : dlookup sc f = some vcell)
    (hnd : (sc.map Prod.fst).Nodup) :
    (ExcelUtils.convert_instructions_to_formats (some ins) R C).getField f = some vcell := by
  have hne : ins.cell ≠ [] := dgetT_ne_nil _ _ _ hcell
  have hcel : ins.cell.isEmpty = false := by
    rcases hc2 : ins.cell with _ | ⟨e, l⟩
    · exact absurd hc2 hne
    · rfl
  have hempty : (ins.row.isEmpty && ins.column.isEmpty && ins.cell.isEmpty) = false := by
    simp [hcel]
  rw [ExcelUtils.convert_instructions_to_formats]
  simp only [hempty, Bool.false_eq_true, if_false, hcell, hr, hc]
  rw [Formatter.getField_ofKwargs _ _ hf]
  exact dlookup_overlay_right _ _ _ _ hfcell hnd

/-- Witness for C1 at a concrete instruction set: row 0 paints
`text_color` black, column 1 paints it green, cell (0,1) paints it red; the
resolved formatter's text color is red. -/
theorem convert_cell_tier_wins_witness :
    (ExcelUtils.convert_instructions_to_formats
      (some ⟨[(PyKey.s "0", [("text_color", StyleVal.vs "black")])],
             [(PyKey.s "1", [("text_color", StyleVal.vs "green")])],
             [((PyKey.s "0", PyKey.s "1"), [("text_color", StyleVal.vs "red")])]⟩)
      0 1).getField "text_color" = some (StyleVal.vs "red") :=
  convert_cell_tier_wins
    ⟨[(PyKey.s "0", [("text_color", StyleVal.vs "black")])],
     [(PyKey.s "1", [("text_color", StyleVal.vs "green")])],
     [((PyKey.s "0", PyKey.s "1"), [("text_color", StyleVal.vs "red")])]⟩
    0 1 "text_color"
    [("text_color", StyleVal.vs "black")] [("text_color", StyleVal.vs "green")]
    [("text_color", StyleVal.vs "red")]
    (StyleVal.vs "black") (StyleVal.vs "green") (StyleVal.vs "red")
    (Or.inr (Or.inr (Or.inr (Or.inl rfl)))) (by decide) (by decide) (by decide)
    (by decide) (by decide) (by decide) (by decide)

theorem dgetT_none_of_int_keys (l : List (PyKey × Style)) (a : String)
    (h : l.all (fun e => e.1.isInt) = true) : dgetT l (PyKey.s a) = Option.none := by
  induction l with
  | nil => rfl
  | cons hd tl ih =>
      obtain ⟨k, v⟩ := hd
      simp only [List.all_cons, Bool.and_eq_true] at h
      rcases k with s | n
      · simp [PyKey.isInt] at h
      · rw [dgetT, tlookup]
        have : (PyKey.s a = PyKey.i n) = False := by simp
        simp only [this, if_false]
        have := ih h.2
        rw [dgetT] at this
        exact this

theorem dgetT_none_of_int_pair_keys (l : List ((PyKey × PyKey) × Style)) (a b : String)
    (h : l.all (fun e => e.1.1.isInt && e.1.2.isInt) = true) :
    dgetT l (PyKey.s a, PyKey.s b) = Option.none := by
  induction l with
  | nil => rfl
  | cons hd tl ih =>
      obtain ⟨⟨k1, k2⟩, v⟩ := hd
      simp only [List.all_cons, Bool.and_eq_true] at h
      rcases k1 with s | n
      · simp [PyKey.isInt] at h
      · rw [dgetT, tlookup]
        have : ((PyKey.s a, PyKey.s b) = (PyKey.i n, k2)) = False := by simp
        simp only [this, if_false]
        have := ih h.2
        rw [dgetT] at this
        exact this

/-- C10: `_convert_instructions_to_formats` stringifies the row and column
indices before every tier lookup, so instruction tiers keyed by integers
(or integer pairs for the cell tier) never match any coordinate: the result
is the default empty `Formatter()` for every row and column. -/
theorem convert_int_keys_never_match (ins : Instructions) (r c : Nat)
    (hr : ins.row.all (fun e => e.1.isInt) = true)
    (hc : ins.column.all (fun e => e.1.isInt) = true)
    (hcell : ins.cell.all (fun e => e.1.1.isInt && e.1.2.isInt) = true) :
    ExcelUtils.convert_instructions_to_formats (some ins) r c = Formatter.empty := by
  rw [ExcelUtils.convert_instructions_to_formats]
  by_cases hemp : (ins.row.isEmpty && ins.column.isEmpty && ins.cell.isEmpty) = true
  · simp only [hemp, if_true]
  · simp only [Bool.not_eq_true] at hemp
    simp only [hemp, Bool.false_eq_true, if_false,
      dgetT_none_of_int_pair_keys ins.cell _ _ hcell,
      dgetT_none_of_int_keys ins.row _ hr,
      dgetT_none_of_int_keys ins.column _ hc]

/-- Witness for C10: an instruction set keyed by the integers 0 (row), 1
(column) and (0, 1) (cell) resolves every coordinate — in particular (0, 1)
itself — to the default formatter. -/
theorem convert_int_keys_never_match_witness :
    ExcelUtils.convert_instructions_to_formats
      (some ⟨[(PyKey.i 0, [("text_color", StyleVal.vs "black")])],
             [(PyKey.i 1, [("text_color", StyleVal.vs "green")])],
             [((PyKey.i 0, PyKey.i 1), [("text_color", StyleVal.vs "red")])]⟩)
      0 1 = Formatter.empty :=
  convert_int_keys_never_match
    ⟨[(PyKey.i 0, [("text_color", StyleVal.vs "black")])],
     [(PyKey.i 1, [("text_color", StyleVal.vs "green")])],
     [((PyKey.i 0, PyKey.i 1), [("text_color", StyleVal.vs "red")])]⟩
    0 1 (by decide) (by decide) (by decide)

/-! ## The tabular writer (src/initiator.py lines 334-528, 1043-1056)

The external xlsxwriter workbook is modelled by recording every
`write_cell` call (row, column, serialized value, resolved formatter) in
order; `XlState.offset` is the instance's `_offset` cursor.  Workbook and
worksheet creation, the file-existence/overwrite check and `close_workbook`
are file-system I/O, out of scope per the specification. -/

structure CellWrite where
  row : Nat
  col : Nat
  value : PVal
  fmt : Formatter
  deriving DecidableEq, Repr

structure XlState where
  sheet : List CellWrite
  offset : Nat
  deriving DecidableEq, Repr

/-- `ExcelUtils.__init__`: no cells written yet, `_offset = 0`. -/
def XlState.init : XlState := ⟨[], 0⟩

namespace DBUtility

/-- Pads a number to two digits, as `strftime` does. -/
def pad2 (n : Nat) : String := if n < 10 then "0" ++ toString n else toString n

def pad4 (n : Nat) : String :=
  if n < 10 then "000" ++ toString n
  else if n < 100 then "00" ++ toString n
  else if n < 1000 then "0" ++ toString n
  else toString n

/-- `DBUtility.serialize` (lines 203-219): datetimes become `'%m/%d/%Y'`
strings, strings/ints/bools pass through, everything without a serializer
becomes `None`.  (`Decimal` → float and `dict` passthrough concern values
that never reach the writer in this program; `xdate` values — xlrd serial
dates — are never written back, and their calendar conversion lives in the
external library, so they are left untouched here.) -/
def serialize : PVal → PVal
  | .dt d => .s (pad2 d.month ++ "/" ++ pad2 d.day ++ "/" ++ pad4 d.year)
  | .xdate n => .xdate n
  | .s v => .s v
  | .i n => .i n
  | .b v => .b v
  | .none => .none

end DBUtility

namespace ExcelUtils

/-- `ExcelUtils.write_cell` (lines 492-495): create a format object from the
formatter and hand `(row, col, value, format)` to the worksheet.  Modelled
by recording the write. -/
def write_cell (st : XlState) (row_idx col_idx : Nat) (value : PVal)
    (formatter : Formatter) : XlState :=
  { st with sheet := st.sheet ++ [⟨row_idx, col_idx, value, formatter⟩] }

end ExcelUtils

/-- The inner cell loop shared by `write_row`'s branches and the value loops
of `create_new`/`create_new_sheet`: serialize each cell, resolve its
formatter (at row `fmtRow` — `write_row`'s nested branch resolves at the
local `row_idx` while writing at `row_idx + offset`), and write it at
`targetRow`. -/
def writeFlatCells (st : XlState) (cells : List PVal) (targetRow fmtRow colStart : Nat)
    (instructions : Option Instructions) : XlState :=
  match cells with
  | [] => st
  | c :: rest =>
      let value := DBUtility.serialize c
      let formatter := ExcelUtils.convert_instructions_to_formats instructions fmtRow colStart
      writeFlatCells (ExcelUtils.write_cell st targetRow colStart value formatter)
        rest targetRow fmtRow (colStart + 1) instructions

/-- The row loop of `write_row`'s nested branch: each row is written at
`row_idx + off` (formatter resolved at the plain `row_idx`), and
`new_offset` is incremented once per row. -/
def writeNestedRows (st : XlState) (rows : List (List PVal)) (row_idx off new_offset : Nat)
    (instructions : Option Instructions) : XlState × Nat :=
  match rows with
  | [] => (st, new_offset)
  | r :: rest =>
      let st' := writeFlatCells st r (row_idx + off) row_idx 0 instructions
      writeNestedRows st' rest (row_idx + 1) off (new_offset + 1) instructions

/-- The argument of `write_row`: Python passes one list whose first
element's type (list vs scalar) selects the nested or flat branch; a
homogeneous list is therefore a flat value list or a list of rows (the
empty list selects neither branch, whichever constructor carries it, and a
mixed list crashes Python's `enumerate` and is not modelled). -/
inductive WriteValues where
  | flat (cells : List PVal)
  | nested (rows : List (List PVal))
  deriving DecidableEq, Repr

def WriteValues.rowCount : WriteValues → Nat
  | .flat [] => 0
  | .flat (_ :: _) => 1
  | .nested rows => rows.length

namespace ExcelUtils

/-- `ExcelUtils.write_row` (lines 498-528).  `is_nested` is `None` for an
empty list (neither branch runs, the cursor is just set to `offset`),
`True`/`False` otherwise; `offset` defaults to the instance cursor
`self._offset`; the nested branch advances `new_offset` by one per row, the
flat branch by one; `self._offset` is set to `new_offset`, which is also
returned. -/
def write_row (st : XlState) (values : WriteValues) (offset : Option Nat)
    (instructions : Option Instructions) : XlState × Nat :=
  let off := match offset with
    | Option.none => st.offset
    | some o => o
  match values with
  | .nested (r :: rest) =>
      let (st', new_offset) := writeNestedRows st (r :: rest) 0 off off instructions
      ({ st' with offset := new_offset }, new_offset)
  | .flat (c :: cs) =>
      let st' := writeFlatCells st (c :: cs) off off 0 instructions
      ({ st' with offset := off + 1 }, off + 1)
  | _ => ({ st with offset := off }, off)

/-- A sequence of `write_row` calls with no explicit offset. -/
def writeRowSeq (st : XlState) (vs : List WriteValues)
    (instructions : Option Instructions) : XlState :=
  vs.foldl (fun s v => (write_row s v Option.none instructions).1) st

end ExcelUtils

theorem writeNestedRows_offset (rows : List (List PVal)) :
    ∀ st row_idx off new_offset i,
      (writeNestedRows st rows row_idx off new_offset i).2 = new_offset + rows.length := by
  induction rows with
  | nil => intro st row_idx off new_offset i; simp [writeNestedRows]
  | cons r rest ih =>
      intro st row_idx off new_offset i
      rw [writeNestedRows, ih]
      simp [List.length_cons]
      omega

theorem write_row_offset_step (st : XlState) (v : WriteValues) (i : Option Instructions) :
    ((ExcelUtils.write_row st v Option.none i).1).offset = st.offset + v.rowCount := by
  rcases v with (_ | ⟨c, cs⟩) | rows
  · simp [ExcelUtils.write_row, WriteValues.rowCount]
  · simp [ExcelUtils.write_row, WriteValues.rowCount]
  · rcases rows with _ | ⟨r, rest⟩
    · simp [ExcelUtils.write_row, WriteValues.rowCount]
    · rw [WriteValues.rowCount, ExcelUtils.write_row]
      simp only [writeNestedRows_offset (r :: rest) st 0 st.offset st.offset i]

/-- C5: `write_row` without an explicit offset starts at the current
`_offset` cursor (it behaves exactly as if the cursor had been passed
explicitly), and a sequence of offset-less `write_row` calls advances the
cursor by exactly the total number of rows written — 1 per non-empty flat
value list, N per nested list of N rows, 0 per empty list — so the next
offset-less call starts at the cumulative value. -/
theorem write_row_cursor_roundtrip (st : XlState) (v : WriteValues)
    (vs : List WriteValues) (i : Option Instructions) :
    ExcelUtils.write_row st v Option.none i = ExcelUtils.write_row st v (some st.offset) i ∧
    (ExcelUtils.writeRowSeq st vs i).offset =
      st.offset + (vs.map WriteValues.rowCount).sum := by
  constructor
  · rfl
  · induction vs generalizing st with
    | nil => simp [ExcelUtils.writeRowSeq]
    | cons hd tl ih =>
        rw [ExcelUtils.writeRowSeq, List.foldl_cons]
        have step := write_row_offset_step st hd i
        have := ih ((ExcelUtils.write_row st hd Option.none i).1)
        rw [ExcelUtils.writeRowSeq] at this
        rw [this, step, List.map_cons, List.sum_cons]
        omega

/-! ## `create_new` (src/initiator.py lines 375-426) and the main program's
fixed header row (lines 1001-1016, 1049-1051) -/

/-- A row of `create_new`'s `values`: a list/tuple of cell values, or
anything else (a dict row falls into the `pass` branch; so does any other
type, because no branch matches). -/
inductive CRow where
  | cells (l : List PVal)
  | other
  deriving Repr

/-- The header loop of `create_new`/`create_new_sheet`: headers are written
at row 0, column `idx`, with the formatter resolved at `(0, idx)`; header
values are written verbatim (no `serialize` call). -/
def writeHeaderCells (st : XlState) (hs : List PVal) (idx : Nat)
    (instructions : Option Instructions) : XlState :=
  match hs with
  | [] => st
  | h :: rest =>
      let formatter := ExcelUtils.convert_instructions_to_formats instructions 0 idx
      writeHeaderCells (ExcelUtils.write_cell st 0 idx h formatter) rest (idx + 1) instructions

/-- The value loop of `create_new`: list/tuple rows are written at
`row_idx + offset` (formatter also resolved there); other rows are
skipped. -/
def writeValueRows (st : XlState) (values : List CRow) (row_idx off : Nat)
    (instructions : Option Instructions) : XlState :=
  match values with
  | [] => st
  | .cells r :: rest =>
      writeValueRows (writeFlatCells st r (row_idx + off) (row_idx + off) 0 instructions)
        rest (row_idx + 1) off instructions
  | .other :: rest => writeValueRows st rest (row_idx + 1) off instructions

namespace ExcelUtils

/-- `ExcelUtils.create_new` (lines 375-426).  The path/overwrite check and
workbook/worksheet creation are file-system I/O (omitted).  Headers, if
supplied, are written at row 0; `offset` is 1 exactly when
`separate_headers` is truthy (non-`None` and non-empty); the value rows are
written next.  The Python loop variable `row_idx` is initialised to 0
before `for row_idx in range(count)`, so when `values` is empty it is still
0 afterwards, and the function returns and stores
`row_idx + 1 + offset`. -/
def create_new (st : XlState) (values : List CRow) (separate_headers : Option (List PVal))
    (instructions : Option Instructions) : XlState × Nat :=
  let st1 := match separate_headers with
    | some hs => writeHeaderCells st hs 0 instructions
    | Option.none => st
  let offset := match separate_headers with
    | some (_ :: _) => 1
    | _ => 0
  let count := values.length
  let st2 := writeValueRows st1 values 0 offset instructions
  let last_row_idx := if count = 0 then 0 else count - 1
  let ret := last_row_idx + 1 + offset
  ({ st2 with offset := ret }, ret)

end ExcelUtils

/-- C6 (evaluating the code at the failing input): `create_new` with a
header row and an empty rows list writes exactly the header cells at row 0
but returns 2 — not 1, the next free row — because the loop variable
`row_idx` keeps its initial value 0 when the loop body never runs and the
function returns `row_idx + 1 + offset = 0 + 1 + 1`.  This contradicts the
method's own docstring ("the offset - the next row index available for
writing"). -/
theorem create_new_empty_rows_returns_two :
    (ExcelUtils.create_new XlState.init [] (some [PVal.s "A", PVal.s "B"]) Option.none).2 = 2 ∧
    ((ExcelUtils.create_new XlState.init [] (some [PVal.s "A", PVal.s "B"])
        Option.none).1.sheet.map (fun c => (c.row, c.col, c.value))) =
      [(0, 0, PVal.s "A"), (0, 1, PVal.s "B")] := by
  constructor <;> rfl

/-- The fixed header row of the report (src/initiator.py line 1049) — note
the source spells the last column "Depency Task: Condition". -/
def headers : List String :=
  ["Pipeline Name", "Task Name", "Type", "Details", "Depency Task: Condition"]

/-- The shared style dict of `get_initial_row_formatting`
(lines 1003-1008). -/
def uniform_format : Style :=
  [("font_styles", StyleVal.vl ["bold"]), ("text_color", StyleVal.vs "black"),
   ("bg_color", StyleVal.vs "#99CCFF"), ("cell_borders", StyleVal.vl ["top"])]

/-- `get_initial_row_formatting` (lines 1001-1016): one column-tier entry
per header index, keyed by `str(i)`, each a copy of `uniform_format`; the
last column's copy gets `cell_borders = ["top", "right"]`. -/
def get_initial_row_formatting (initial_row : List String) : Instructions :=
  { row := [], cell := [],
    column := (List.range initial_row.length).map (fun i =>
      (PyKey.s (toString i),
       if i = initial_row.length - 1 then
         dset uniform_format "cell_borders" (StyleVal.vl ["top", "right"])
       else uniform_format)) }

/-- C9 counterexample: the program's header row is not the list the claim
states — its last entry is the source's literal "Depency Task: Condition",
not "Dependency Task: Condition". -/
theorem headers_ne_claimed :
    headers ≠ ["Pipeline Name", "Task Name", "Type", "Details",
      "Dependency Task: Condition"] := by
  decide

/-- C9 (amended): the main program's `create_new` call
(`create_new(temp_path, [headers], overwrite=True, instructions=...)`)
writes as its first (and only) row, at row 0, exactly the fixed header
`["Pipeline Name", "Task Name", "Type", "Details", "Depency Task:
Condition"]`, and returns next-row offset 1. -/
theorem first_output_row_is_headers :
    ((ExcelUtils.create_new XlState.init [CRow.cells (headers.map PVal.s)] Option.none
        (some (get_initial_row_formatting headers))).1.sheet.map
      (fun c => (c.row, c.col, c.value))) =
      [(0, 0, PVal.s "Pipeline Name"), (0, 1, PVal.s "Task Name"), (0, 2, PVal.s "Type"),
       (0, 3, PVal.s "Details"), (0, 4, PVal.s "Depency Task: Condition")] ∧
    (ExcelUtils.create_new XlState.init [CRow.cells (headers.map PVal.s)] Option.none
        (some (get_initial_row_formatting headers))).2 = 1 := by
  constructor <;> rfl

/-! ## `datetime.strptime` for the fixed format lists of
`ExcelUtils.is_datetime` (src/initiator.py lines 625-661)

Python's `strptime` compiles a format into one regex (`_strptime.TimeRE`):
`%Y` is exactly four digits; `%m`/`%I` are `1[0-2]|0[1-9]|[1-9]`; `%d` is
`3[01]|[12]\d|0[1-9]|[1-9]`; `%H` is `2[0-3]|[0-1]\d|\d`; `%M` is
`[0-5]\d|\d`; `%S` is `6[0-1]|[0-5]\d|\d`; other characters match
literally.  Every directive's two-digit alternatives precede its one-digit
alternative, so the matcher below tries a valid two-digit read first and
falls back to one digit (regex backtracking).  A successful regex match
must consume the whole string, and the `datetime` constructor then
validates the calendar date (missing fields default to 1900-01-01
00:00:00; `%I` without `%p` treats 12 as 0). -/

inductive FmtTok where
  | dir (c : Char)
  | lit (c : Char)
  deriving DecidableEq, Repr

def parseFmt : List Char → Option (List FmtTok)
  | [] => some []
  | '%' :: c :: rest =>
      if c = 'Y' ∨ c = 'm' ∨ c = 'd' ∨ c = 'H' ∨ c = 'M' ∨ c = 'S' ∨ c = 'I' then
        (parseFmt rest).map (fun ts => FmtTok.dir c :: ts)
      else Option.none
  | ['%'] => Option.none
  | c :: rest => (parseFmt rest).map (fun ts => FmtTok.lit c :: ts)

def digitVal (c : Char) : Option Nat :=
  if c.isDigit then some (c.toNat - 48) else Option.none

/-- Whether the two digits `a`,`b` form a valid two-digit match for the
directive, following the regex alternatives listed above. -/
def twoDigitOk (d : Char) (a b : Nat) : Bool :=
  if d = 'm' ∨ d = 'I' then decide ((a = 1 ∧ b ≤ 2) ∨ (a = 0 ∧ 1 ≤ b))
  else if d = 'd' then decide ((a = 3 ∧ b ≤ 1) ∨ a = 1 ∨ a = 2 ∨ (a = 0 ∧ 1 ≤ b))
  else if d = 'H' then decide ((a = 2 ∧ b ≤ 3) ∨ a ≤ 1)
  else if d = 'M' then decide (a ≤ 5)
  else if d = 'S' then decide ((a = 6 ∧ b ≤ 1) ∨ a ≤ 5)
  else false

/-- Whether the single digit `a` is a valid one-digit match for the
directive. -/
def oneDigitOk (d : Char) (a : Nat) : Bool :=
  if d = 'm' ∨ d = 'I' ∨ d = 'd' then decide (1 ≤ a)
  else if d = 'H' ∨ d = 'M' ∨ d = 'S' then true
  else false

/-- `%Y`: exactly four digits. -/
def yearCand (s : List Char) : Option (Nat × List Char) :=
  match s with
  | c1 :: c2 :: c3 :: c4 :: rest =>
      match digitVal c1, digitVal c2, digitVal c3, digitVal c4 with
      | some a, some b, some c, some e => some (a * 1000 + b * 100 + c * 10 + e, rest)
      | _, _, _, _ => Option.none
  | _ => Option.none

/-- Match a token list against the input, collecting directive values; the
two-digit reading of a directive is preferred, with backtracking to the
one-digit reading when the rest of the pattern fails. -/
def matchToks : List FmtTok → List Char → Option (List (Char × Nat) × List Char)
  | [], s => some ([], s)
  | .lit c :: ts, s =>
      match s with
      | c' :: s' => if c' = c then matchToks ts s' else Option.none
      | [] => Option.none
  | .dir d :: ts, s =>
      if d = 'Y' then
        match yearCand s with
        | some (v, s') => (matchToks ts s').map (fun r => ((d, v) :: r.1, r.2))
        | Option.none => Option.none
      else
        let long : Option (List (Char × Nat) × List Char) :=
          match s with
          | c1 :: c2 :: s' =>
              match digitVal c1, digitVal c2 with
              | some a, some b =>
                  if twoDigitOk d a b then
                    (matchToks ts s').map (fun r => ((d, a * 10 + b) :: r.1, r.2))
                  else Option.none
              | _, _ => Option.none
          | _ => Option.none
        match long with
        | some res => some res
        | Option.none =>
            match s with
            | c1 :: s' =>
                match digitVal c1 with
                | some a =>
                    if oneDigitOk d a then
                      (matchToks ts s').map (fun r => ((d, a) :: r.1, r.2))
                    else Option.none
                | Option.none => Option.none
            | [] => Option.none

def asgnLookup (l : List (Char × Nat)) (d : Char) : Option Nat :=
  match l with
  | [] => Option.none
  | (c, v) :: rest => if c = d then some v else asgnLookup rest d

def isLeapYear (y : Nat) : Bool := (y % 4 = 0 && y % 100 ≠ 0) || y % 400 = 0

def daysInMonth (y m : Nat) : Nat :=
  if m = 2 then (if isLeapYear y then 29 else 28)
  else if m = 4 ∨ m = 6 ∨ m = 9 ∨ m = 11 then 30
  else 31

/-- Build the `datetime` from the matched directive values, with Python's
defaults (1900-01-01 00:00:00) and the constructor's range validation.
`%I` without an AM/PM directive is treated as AM, so 12 becomes hour 0. -/
def buildDateTime (l : List (Char × Nat)) : Option PyDateTime :=
  let year := (asgnLookup l 'Y').getD 1900
  let month := (asgnLookup l 'm').getD 1
  let day := (asgnLookup l 'd').getD 1
  let hour := match asgnLookup l 'H' with
    | some h => h
    | Option.none =>
        match asgnLookup l 'I' with
        | some h => if h = 12 then 0 else h
        | Option.none => 0
  let minute := (asgnLookup l 'M').getD 0
  let second := (asgnLookup l 'S').getD 0
  if 1 ≤ year ∧ year ≤ 9999 ∧ 1 ≤ month ∧ month ≤ 12 ∧ 1 ≤ day ∧
      day ≤ daysInMonth year month ∧ hour ≤ 23 ∧ minute ≤ 59 ∧ second ≤ 59 then
    some ⟨year, month, day, hour, minute, second⟩
  else Option.none

/-- `datetime.strptime(data, fmt)`: `none` models a raised `ValueError`
(pattern mismatch, unconverted trailing data, or calendar validation). -/
def strptime (data fmt : String) : Option PyDateTime :=
  match parseFmt fmt.toList with
  | some toks =>
      match matchToks toks data.toList with
      | some (l, []) => buildDateTime l
      | _ => Option.none
  | Option.none => Option.none

/-- The `accepted_formats` list of `is_datetime` (lines 627-638). -/
def accepted_formats : List String :=
  ["%Y-%m-%d %H:%M:%SZ", "%m/%d/%Y %H:%M%SZ", "%Y-%m-%d", "%m/%d/%Y", "%m/%d", "%m-%d",
   "%m/%d/%Y %H:%M", "%m/%d/%Y %I:%M", "%Y-%m-%d %H:%M", "%Y-%m-%d %I:%M"]

/-- The `bad_formats` list of `is_datetime` (lines 639-643). -/
def bad_formats : List String := ["%m-%Y-%d", "%m-%Y", "%m-%Y-%d %H:%M"]

def firstParse : List String → String → Option PyDateTime
  | [], _ => Option.none
  | f :: rest, p =>
      match strptime p f with
      | some d => some d
      | Option.none => firstParse rest p

namespace ExcelUtils

/-- `ExcelUtils.is_datetime` (lines 625-661): the first accepted format
that parses returns `(True, datetime)`; otherwise, if any bad format
parses, `(False, None)`; otherwise the function falls through to
`return True, datetime_obj` with `datetime_obj` still `None` — that is,
`(True, None)`. -/
def is_datetime (param : String) : Bool × Option PyDateTime :=
  match firstParse accepted_formats param with
  | some d => (true, some d)
  | Option.none =>
      if bad_formats.any (fun f => (strptime param f).isSome) then (false, Option.none)
      else (true, Option.none)

end ExcelUtils

/-! ## `ExcelUtils.get_rows` (src/initiator.py lines 530-573) -/

/-- The date-sanitising step for one cell of a date-flagged column (lines
560-569).  Numeric cells (Python's `bool` is an `int`, so bools too) reach
`xldate_as_datetime(cell_val, ...)` — a name the module never imports, so
this branch raises `NameError`.  `None` and the empty string become `None`;
a string is replaced by `is_datetime`'s second component (the parsed
datetime, or `None` when no accepted format matched); any other value
raises the `RuntimeError` of line 568. -/
def sanitizeDate (cell : PVal) (idx : Nat) : Except String PVal :=
  match cell with
  | .i _ => .error "NameError: name xldate_as_datetime is not defined"
  | .b _ => .error "NameError: name xldate_as_datetime is not defined"
  | .none => .ok .none
  | .s s =>
      if s = "" then .ok .none
      else .ok (match (ExcelUtils.is_datetime s).2 with
        | some d => .dt d
        | Option.none => .none)
  | _ => .error ("Expected a Date field in column " ++ toString (idx + 1))

/-- The per-cell loop of `get_rows`: positional equality filters mark the
row disregarded on any mismatch (cells already collected stay, but the row
is dropped at the end); once disregarded, the date-sanitising and
collection step is skipped for the remaining cells. -/
def processCells (filters : Option (List PVal)) (sanitize_dates : Option (List Nat)) :
    List PVal → Nat → Bool → List PVal → Except String (Bool × List PVal)
  | [], _, dis, acc => .ok (dis, acc)
  | cell :: rest, idx, dis, acc =>
      let dis' := match filters with
        | some fs =>
            if h : idx < fs.length then
              (if pyEq cell (fs.get ⟨idx, h⟩) then dis else true)
            else dis
        | Option.none => dis
      if dis' then processCells filters sanitize_dates rest (idx + 1) dis' acc
      else
        match sanitize_dates with
        | some ds =>
            if idx ∈ ds then
              match sanitizeDate cell idx with
              | .ok v => processCells filters sanitize_dates rest (idx + 1) dis' (acc ++ [v])
              | .error e => .error e
            else processCells filters sanitize_dates rest (idx + 1) dis' (acc ++ [cell])
        | Option.none => processCells filters sanitize_dates rest (idx + 1) dis' (acc ++ [cell])

def getRowsLoop (filters : Option (List PVal)) (sanitize_dates : Option (List Nat)) :
    List (List PVal) → List (List PVal) → Except String (List (List PVal))
  | [], acc => .ok acc
  | row :: rest, acc =>
      match processCells filters sanitize_dates row 0 false [] with
      | .error e => .error e
      | .ok (dis, row_values) =>
          getRowsLoop filters sanitize_dates rest
            (if !row_values.isEmpty && !dis then acc ++ [row_values] else acc)

namespace ExcelUtils

/-- `ExcelUtils.get_rows` (lines 530-573).  The sheet's rows (as read by
xlrd) are passed in explicitly.  When `grab_headers` is truthy and
`filters` is falsy (`None` or empty), the source assigns the xlrd row
generator to `rows`, and the subsequent `rows.append(...)` raises
`AttributeError` (with an empty sheet it would return the raw generator);
that broken branch is modelled as an error and no claim reaches it.
Otherwise rows are scanned from index 0 (`grab_headers`) or 1. -/
def get_rows (sheetRows : List (List PVal)) (filters : Option (List PVal))
    (grab_headers : Bool) (sanitize_dates : Option (List Nat)) :
    Except String (List (List PVal)) :=
  let filtersFalsy := match filters with
    | Option.none => true
    | some [] => true
    | some (_ :: _) => false
  if grab_headers && filtersFalsy then
    .error "AttributeError: generator object has no attribute append"
  else
    let start := if grab_headers then 0 else 1
    getRowsLoop filters sanitize_dates (sheetRows.drop start) []

end ExcelUtils

/-- C7 (amended): the ordered filter list `[None, "B"]` applied to a sheet
whose data rows (header skipped) are `[["x","B"],["x","C"]]` returns NO
rows: the `None` filter at position 0 is compared by plain equality, and
`"x" != None`, so both rows are disregarded.  A `None` entry is a literal
filter value, not a wildcard. -/
theorem get_rows_null_filter_excludes_all :
    ExcelUtils.get_rows
      [[PVal.s "h1", PVal.s "h2"], [PVal.s "x", PVal.s "B"], [PVal.s "x", PVal.s "C"]]
      (some [PVal.none, PVal.s "B"]) false Option.none = Except.ok [] := by
  rfl

/-- C7 counterexample: the claimed result — exactly the row `["x","B"]` —
is not what `get_rows` returns on that sheet and filter list (it returns no
rows at all). -/
theorem get_rows_null_filter_cex :
    ExcelUtils.get_rows
      [[PVal.s "h1", PVal.s "h2"], [PVal.s "x", PVal.s "B"], [PVal.s "x", PVal.s "C"]]
      (some [PVal.none, PVal.s "B"]) false Option.none ≠
      Except.ok [[PVal.s "x", PVal.s "B"]] := by
  intro h
  have h2 : (Except.ok ([] : List (List PVal)) : Except String (List (List PVal))) =
      Except.ok [[PVal.s "x", PVal.s "B"]] := by
    calc (Except.ok ([] : List (List PVal)) : Except String (List (List PVal)))
        = ExcelUtils.get_rows
            [[PVal.s "h1", PVal.s "h2"], [PVal.s "x", PVal.s "B"], [PVal.s "x", PVal.s "C"]]
            (some [PVal.none, PVal.s "B"]) false Option.none := by rfl
      _ = Except.ok [[PVal.s "x", PVal.s "B"]] := h
  simp at h2

/-- C8 counterexample: a date-flagged column cell `"hello"` — a string
matching no accepted format (and no bad format) — does NOT raise: the read
succeeds and the value is silently replaced by `None` (`is_datetime` falls
through to `(True, None)` and `get_rows` stores that `None`). -/
theorem get_rows_unparseable_string_is_silently_none :
    ExcelUtils.get_rows [[PVal.s "hdr"], [PVal.s "hello"]] Option.none false (some [0]) =
      Except.ok [[PVal.none]] := by
  rfl

def isStrOrNone : PVal → Bool
  | .s _ => true
  | .none => true
  | _ => false

theorem processCells_ok_of_strings (filters : Option (List PVal)) (sd : Option (List Nat)) :
    ∀ (cells : List PVal), cells.all isStrOrNone = true →
      ∀ idx dis acc, ∃ p, processCells filters sd cells idx dis acc = Except.ok p := by
  intro cells
  induction cells with
  | nil =>
      intro _ idx dis acc
      exact ⟨(dis, acc), rfl⟩
  | cons c rest ih =>
      intro h idx dis acc
      rw [List.all_cons, Bool.and_eq_true] at h
      have hsan : ∀ i, ∃ v, sanitizeDate c i = Except.ok v := by
        intro i
        rcases c with s | n | b | _ | d | x
        · by_cases hs : s = ""
          · exact ⟨PVal.none, by simp [sanitizeDate, hs]⟩
          · exact ⟨(match (ExcelUtils.is_datetime s).2 with
              | some d => PVal.dt d
              | Option.none => PVal.none), by simp [sanitizeDate, hs]⟩
        · exact absurd h.1 (by simp [isStrOrNone])
        · exact absurd h.1 (by simp [isStrOrNone])
        · exact ⟨PVal.none, rfl⟩
        · exact absurd h.1 (by simp [isStrOrNone])
        · exact absurd h.1 (by simp [isStrOrNone])
      simp only [processCells]
      split
      · exact ih h.2 _ _ _
      · rcases sd with _ | ds
        · exact ih h.2 _ _ _
        · simp only
          split
          · obtain ⟨v, hv⟩ := hsan idx
            rw [hv]
            exact ih h.2 _ _ _
          · exact ih h.2 _ _ _

theorem getRowsLoop_ok_of_strings (filters : Option (List PVal)) (sd : Option (List Nat)) :
    ∀ (rows : List (List PVal)),
      (rows.all (fun r => r.all isStrOrNone)) = true →
      ∀ acc, ∃ out, getRowsLoop filters sd rows acc = Except.ok out := by
  intro rows
  induction rows with
  | nil =>
      intro _ acc
      exact ⟨acc, rfl⟩
  | cons r rest ih =>
      intro h acc
      rw [List.all_cons, Bool.and_eq_true] at h
      obtain ⟨p, hp⟩ := processCells_ok_of_strings filters sd r h.1 0 false []
      rw [getRowsLoop, hp]
      exact ih h.2 _

/-- C8 (amended): string (and `None`/empty) cells in date-flagged columns
never raise: an unparseable string is silently replaced by `None` rather
than reported.  Concretely, `get_rows` (header skipped) returns `Except.ok`
on every sheet whose cells are all strings or `None`, whatever the filters
and whatever columns are date-flagged.  (The error branches of the date
step are reached only by non-string values: ints/floats/bools — which in
fact hit the unimported name `xldate_as_datetime`, a `NameError` — and
non-primitive objects, which raise the `RuntimeError` of line 568.) -/
theorem get_rows_all_string_cells_ok (rows : List (List PVal))
    (filters : Option (List PVal)) (sd : Option (List Nat))
    (h : (rows.all (fun r => r.all isStrOrNone)) = true) :
    ∃ out, ExcelUtils.get_rows rows filters false sd = Except.ok out := by
  unfold ExcelUtils.get_rows
  simp only [Bool.false_and, Bool.false_eq_true, if_false]
  refine getRowsLoop_ok_of_strings filters sd (rows.drop 1) ?_ []
  rw [List.all_eq_true] at h ⊢
  intro r hr
  exact h r (List.mem_of_mem_drop hr)

/-- Witness for the amended C8 theorem at a concrete sheet: a date-flagged
column holding a parseable string, an unparseable string and an empty
string is read without an error. -/
theorem get_rows_all_string_cells_ok_witness :
    ((([[PVal.s "hdr"], [PVal.s "2020-01-15"], [PVal.s "hello"],
        [PVal.s ""]] : List (List PVal)).all (fun r => r.all isStrOrNone)) = true) ∧
    ∃ out, ExcelUtils.get_rows
      [[PVal.s "hdr"], [PVal.s "2020-01-15"], [PVal.s "hello"], [PVal.s ""]]
      Option.none false (some [0]) = Except.ok out :=
  ⟨by decide,
   get_rows_all_string_cells_ok
     [[PVal.s "hdr"], [PVal.s "2020-01-15"], [PVal.s "hello"], [PVal.s ""]]
     Option.none (some [0]) (by decide)⟩

/-! ## The parsed JSON document (input of the activity extractor)

A mutual inductive keeps every traversal structurally recursive (so that
concrete runs evaluate definitionally).  An object's fields are kept in
insertion order — Python dicts iterate in insertion order — and lookups are
first-match, which agrees with Python because dict keys are unique.
Floating-point numbers never matter to any claim and are omitted. -/

mutual
inductive Json where
  | str (s : String)
  | num (n : Int)
  | bool (b : Bool)
  | null
  | obj (fields : JFields)
  | arr (elems : JElems)

inductive JFields where
  | nil
  | cons (k : String) (v : Json) (tail : JFields)

inductive JElems where
  | nil
  | cons (v : Json) (tail : JElems)
end

/-- Python `d.get(key, dflt)` on an object's fields. -/
def JFields.getD : JFields → String → Json → Json
  | .nil, _, dflt => dflt
  | .cons k v rest, key, dflt => if key = k then v else JFields.getD rest key dflt

/-- Python `key in d` (dict key membership). -/
def JFields.hasKey : JFields → String → Bool
  | .nil, _ => false
  | .cons k _ rest, key => if key = k then true else JFields.hasKey rest key

/-- Python truthiness of a JSON value: empty string/containers, `0`,
`False` and `None` are falsy. -/
def Json.truthy : Json → Bool
  | .str s => if s = "" then false else true
  | .num n => if n = 0 then false else true
  | .bool b => b
  | .null => false
  | .obj .nil => false
  | .obj (.cons _ _ _) => true
  | .arr .nil => false
  | .arr (.cons _ _) => true

/-- Python `x == "lit"` for a JSON value: only a string compares equal to a
string. -/
def Json.eqStr : Json → String → Bool
  | .str s, t => if s = t then true else false
  | _, _ => false

/-- Python `str(x)` for the values the formatters stringify: strings pass
through, ints print decimally, booleans print `True`/`False`, `None` prints
`"None"`.  The `repr` of dicts/lists is never needed by any claim and is
not modelled (placeholder `""`). -/
def pyStrJson : Json → String
  | .str s => s
  | .num n => toString n
  | .bool b => if b then "True" else "False"
  | .null => "None"
  | .obj _ => ""
  | .arr _ => ""

/-- Python `j.get(key, dflt)`.  Calling `.get` on a non-dict raises
`AttributeError`; all modelled call sites receive dicts (the default is
returned for other shapes, with the unreachable cases noted at each
site). -/
def jget (j : Json) (key : String) (dflt : Json) : Json :=
  match j with
  | .obj fs => fs.getD key dflt
  | _ => dflt

def charsContain (pat : List Char) : List Char → Bool
  | [] => pat.isEmpty
  | c :: rest => pat.isPrefixOf (c :: rest) || charsContain pat rest

/-- Python `pat in hay` for strings: substring containment. -/
def strContains (hay pat : String) : Bool := charsContain pat.toList hay.toList

/-- The recognized-activity whitelist `tasks` (lines 918-919 and 950).
Note it contains `SqlServerStoredProcedure` and `DatabricksNotebook` (the
full variant names) and does NOT contain `ExecutePipeline`. -/
def tasks : List String :=
  ["SqlServerStoredProcedure", "Lookup", "IfCondition", "GetMetadata", "DatabricksNotebook",
   "WebActivity", "Wait", "Delete", "Copy"]

def JElems.containsStr : JElems → String → Bool
  | .nil, _ => false
  | .cons (.str s) rest, x => if s = x then true else JElems.containsStr rest x
  | .cons _ rest, x => JElems.containsStr rest x

/-- `any(x in task_type for x in tasks)`: substring containment for a
string `type`, key membership for a dict, element equality for a list
(Python's `in`); `x in 5` would raise `TypeError` (false here,
unreachable). -/
def containsAnyTask : Json → Bool
  | .str s => tasks.any (fun x => strContains s x)
  | .obj fs => tasks.any (fun x => fs.hasKey x)
  | .arr es => tasks.any (fun x => es.containsStr x)
  | _ => false

/-- Python `x or y` for an optional/possibly-empty string: `None` and `""`
fall through to `y`. -/
def pyOrStr (x : Option String) (y : String) : String :=
  match x with
  | some s => if s = "" then y else s
  | Option.none => y

/-- `','.join(x)`: over a list, the elements (which Python requires to be
strings; `pyStrJson` totalises the unreachable non-string case); over a
string, its characters. -/
def JElems.toStrList : JElems → List String
  | .nil => []
  | .cons v rest => pyStrJson v :: JElems.toStrList rest

def jJoinComma : Json → String
  | .arr es => String.intercalate "," es.toStrList
  | .str s => String.intercalate "," (s.toList.map (fun c => String.singleton c))
  | _ => ""

/-- The entry loop of `parse_dependsOn` (lines 969-971): only dict entries
contribute `"<activity>:<cond1>,<cond2>,..."`. -/
def dependsOnEntries : JElems → List String
  | .nil => []
  | .cons (.obj fs) rest =>
      (pyStrJson (fs.getD "activity" (Json.str "")) ++ ":" ++
        jJoinComma (fs.getD "dependencyConditions" (Json.arr JElems.nil))) ::
      dependsOnEntries rest
  | .cons _ rest => dependsOnEntries rest

namespace ADFPipelineDocGenerator

/-- `ADFPipelineDocGenerator.parse_dependsOn` (lines 966-975): a falsy
argument (absent `dependsOn` arrives as `''`; an empty list is also falsy)
returns `None`; a non-empty list joins its dict entries; iterating a
non-empty dict yields string keys and a non-empty string yields characters,
neither of which is a dict, so both produce `''` (which the callers' `or`
then replaces). -/
def parse_dependsOn (dependency_list : Json) : Option String :=
  if dependency_list.truthy then
    match dependency_list with
    | .arr es => some (String.intercalate "," (dependsOnEntries es))
    | _ => some ""
  else Option.none

end ADFPipelineDocGenerator

/-! ## The per-kind detail formatters (src/initiator.py lines 729-897) -/

/-- The stored-procedure parameter loop shared verbatim by `ParseLookup`
(lines 737-744) and `ParseSPROC` (lines 763-770): each parameter's value
dict is read (`param_obj.get(param).get('value')`, a non-dict parameter
entry would raise `AttributeError` — totalised with `str(None)`), a nested
value dict is unwrapped once more, and `"name: value"` strings are
collected. -/
def sprocParamFields : JFields → List String
  | .nil => []
  | .cons k v rest =>
      (match v with
       | .obj vfs =>
           (match JFields.getD vfs "value" Json.null with
            | .obj vvfs => k ++ ": " ++ pyStrJson (JFields.getD vvfs "value" Json.null)
            | val => k ++ ": " ++ pyStrJson val)
       | _ => k ++ ": " ++ pyStrJson Json.null) :: sprocParamFields rest

/-- `for param in param_obj`: a dict iterates its keys; the default `''`
iterates nothing; a non-empty string/list would make the body raise
(unreachable). -/
def sprocParamDetails : Json → List String
  | .obj fs => sprocParamFields fs
  | _ => []

namespace ParseLookup

/-- `ParseLookup.parse` (lines 730-746). -/
def parse (input_data : Json) : Option String :=
  let typeProperties := jget input_data "typeProperties" (Json.str "")
  if typeProperties.truthy then
    let source := jget typeProperties "source" (Json.str "")
    if source.truthy then
      let sproc_name := jget source "sqlReaderStoredProcedureName" (Json.str "")
      let param_obj := jget source "storedProcedureParameters" (Json.str "")
      some (pyStrJson sproc_name ++ " ,    Parameters: " ++
        String.intercalate "," (sprocParamDetails param_obj))
    else Option.none
  else Option.none

end ParseLookup

namespace ParseIfCondition

/-- `ParseIfCondition.parse` (lines 749-755). -/
def parse (input_data : Json) : Option String :=
  let typeProperties := jget input_data "typeProperties" (Json.str "")
  if typeProperties.truthy then
    let expression := jget typeProperties "expression" (Json.str "")
    if expression.truthy then
      some ("Expression:     " ++ pyStrJson (jget expression "value" (Json.str "")))
    else Option.none
  else Option.none

end ParseIfCondition

namespace ParseSPROC

/-- `ParseSPROC.parse` (lines 758-772). -/
def parse (input_data : Json) : Option String :=
  let typeProperties := jget input_data "typeProperties" (Json.str "")
  if typeProperties.truthy then
    let sproc_name := jget typeProperties "storedProcedureName" (Json.str "")
    let param_obj := jget typeProperties "storedProcedureParameters" (Json.str "")
    some ("Stored procedure name " ++ pyStrJson sproc_name ++ " ,    Parameters: " ++
      String.intercalate "," (sprocParamDetails param_obj))
  else Option.none

end ParseSPROC

namespace ParseWebActivity

/-- `ParseWebActivity.parse` (lines 775-787).  With falsy `typeProperties`
the return statement references the unbound `url_name` and raises
`NameError`; modelled as producing no detail. -/
def parse (input_data : Json) : Option String :=
  let typeProperties := jget input_data "typeProperties" (Json.str "")
  if typeProperties.truthy then
    let url_name := jget typeProperties "url" (Json.str "")
    let method_name := jget typeProperties "method" (Json.str "")
    let body_properties := jget typeProperties "body" (Json.str "")
    some ("Http request URL: " ++ pyStrJson url_name ++ " \n\n Method Name : " ++
      pyStrJson method_name ++ " \n\n Body properties : " ++ pyStrJson body_properties)
  else Option.none

end ParseWebActivity

namespace ParseWaitActivity

/-- `ParseWaitActivity.parse` (lines 790-794). -/
def parse (input_data : Json) : Option String :=
  let typeProperties := jget input_data "typeProperties" (Json.str "")
  if typeProperties.truthy then
    some ("Wait time in Seconds:  " ++
      pyStrJson (jget typeProperties "waitTimeInSeconds" (Json.str "")))
  else Option.none

end ParseWaitActivity

namespace ParseDeleteActivity

/-- `ParseDeleteActivity.parse` (lines 797-807).  A missing `dataset` makes
Python call `''.get(...)` and raise (unreachable in modelled traces; `jget`
then yields the default). -/
def parse (input_data : Json) : Option String :=
  let typeProperties := jget input_data "typeProperties" (Json.str "")
  if typeProperties.truthy then
    let dataset_name := jget typeProperties "dataset" (Json.str "")
    let reference_Name := jget dataset_name "referenceName" (Json.str "")
    let store_settings := jget typeProperties "storeSettings" (Json.str "")
    if store_settings.truthy then
      some ("DataSet name-" ++ pyStrJson reference_Name ++ " \nFileName-" ++
        pyStrJson (jget store_settings "wildcardFileName" (Json.str "")))
    else Option.none
  else Option.none

end ParseDeleteActivity

namespace ParseExecutePipeline

/-- `ParseExecutePipeline.parse` (lines 809-816). -/
def parse (input_data : Json) : Option String :=
  let typeProperties := jget input_data "typeProperties" (Json.str "")
  if typeProperties.truthy then
    let pipeline := jget typeProperties "pipeline" (Json.str "")
    if pipeline.truthy then
      some ("Child pipeline Name : " ++ pyStrJson (jget pipeline "referenceName" (Json.str "")))
    else Option.none
  else Option.none

end ParseExecutePipeline

namespace ParseCopyActivity

/-- `ParseCopyActivity.parse` (lines 818-850).  `inputreferenceName` and
`outputreferenceName` are only bound when `inputs`/`outputs` are truthy; a
return statement reached with either unbound raises `NameError` (modelled
as no detail). -/
def parse (input_data : Json) : Option String :=
  let typeProperties := jget input_data "typeProperties" (Json.str "")
  let inputRef : Option String :=
    if (jget input_data "inputs" (Json.str "")).truthy then
      match jget input_data "inputs" (Json.str "") with
      | .arr (.cons first _) => some (pyStrJson (jget first "referenceName" (Json.str "")))
      | _ => Option.none
    else Option.none
  let outputRef : Option String :=
    if (jget input_data "outputs" (Json.str "")).truthy then
      match jget input_data "outputs" (Json.str "") with
      | .arr (.cons first _) => some (pyStrJson (jget first "referenceName" (Json.str "")))
      | _ => Option.none
    else Option.none
  if typeProperties.truthy then
    let source := jget typeProperties "source" (Json.str "")
    if source.truthy then
      let ty := jget source "type" (Json.str "")
      let branch1 : Option String :=
        if Json.eqStr ty "SqlDWSink" then Option.none
        else if (jget source "storeSettings" (Json.str "")).truthy then
          let storeSettings := jget source "storeSettings" (Json.str "")
          if (jget storeSettings "wildcardFileName" (Json.str "")).truthy then
            match inputRef, outputRef with
            | some i, some o =>
                some ("Input DataSet : " ++ i ++ " \nOutput DataSet : " ++ o ++
                  "\n File name : " ++
                  pyStrJson (jget storeSettings "wildcardFileName" (Json.str "")) ++
                  "\nFolder Name or Path:" ++
                  pyStrJson (jget storeSettings "wildcardFolderPath" (Json.str "")))
            | _, _ => Option.none
          else Option.none
        else Option.none
      match branch1 with
      | some s => some s
      | Option.none =>
          if Json.eqStr ty "SqlDWSource" then
            if (jget source "sqlReaderStoredProcedureName" (Json.str "")).truthy then
              match inputRef, outputRef with
              | some i, some o =>
                  some ("Input DataSet : " ++ i ++ " \nOutput DataSet : " ++ o ++
                    "\n File name : " ++
                    pyStrJson (jget source "sqlReaderStoredProcedureName" (Json.str "")) ++
                    "\nFolder Name or Path:")
              | _, _ => Option.none
            else Option.none
          else Option.none
    else Option.none
  else Option.none

end ParseCopyActivity

/-- The `baseParameters` loop of `ParseNotebookActivity` (lines 858-866):
no inner `.get('value')` on the entry itself; dict values are unwrapped,
other values concatenated directly (Python would raise `TypeError` on a
non-string — `pyStrJson` totalises). -/
def notebookParamFields : JFields → List String
  | .nil => []
  | .cons k v rest =>
      (match v with
       | .obj vfs => k ++ " : " ++ pyStrJson (JFields.getD vfs "value" Json.null)
       | _ => k ++ " : " ++ pyStrJson v) :: notebookParamFields rest

def notebookParams : Json → List String
  | .obj fs => notebookParamFields fs
  | _ => []

namespace ParseNotebookActivity

/-- `ParseNotebookActivity.parse` (lines 853-874): the accumulator loop
`param = i + ',\n' + param` reverses the parameter list; with falsy
`typeProperties` the return references unbound names and raises `NameError`
(modelled as no detail).  Note the source's "Paramerters" spelling. -/
def parse (input_data : Json) : Option String :=
  let typeProperties := jget input_data "typeProperties" (Json.str "")
  if typeProperties.truthy then
    let notebook_path := jget typeProperties "notebookPath" (Json.str "")
    let param_details := notebookParams (jget typeProperties "baseParameters" (Json.str ""))
    let param := param_details.foldl (fun acc i => i ++ ",\n" ++ acc) ""
    some ("Notebook path: " ++ pyStrJson notebook_path ++ " \n\n Paramerters: " ++ param)
  else Option.none

end ParseNotebookActivity

/-- The `fieldList` loop of `ParseGetMetadataActivity` (lines 883-885):
`attr = i + ' , ' + attr` reverses the list; a string iterates its
characters. -/
def attrFoldElems : JElems → String → String
  | .nil, acc => acc
  | .cons v rest, acc => attrFoldElems rest (pyStrJson v ++ " , " ++ acc)

def attrFold : Json → String
  | .arr es => attrFoldElems es ""
  | .str s => s.toList.foldl (fun acc c => String.singleton c ++ " , " ++ acc) ""
  | _ => ""

namespace ParseGetMetadataActivity

/-- `ParseGetMetadataActivity.parse` (lines 877-886): `dataset` is read
with no default (`None`), so a missing dataset would raise on
`None.get(...)` (unreachable; `jget` yields the default `''` reference
name). -/
def parse (input_data : Json) : Option String :=
  let typeProperties := jget input_data "typeProperties" (Json.str "")
  if typeProperties.truthy then
    let ds := jget typeProperties "dataset" Json.null
    let dataset_name := jget ds "referenceName" (Json.str "")
    let attr := attrFold (jget typeProperties "fieldList" (Json.str ""))
    some ("Dataset name: " ++ pyStrJson dataset_name ++ " \n\n Metadata attributes: " ++ attr)
  else Option.none

end ParseGetMetadataActivity

namespace ADFPipelineDocGenerator

/-- `ADFPipelineDocGenerator.parse_task_details` (lines 977-997): exact
string-equality dispatch.  Note the dispatcher knows `ExecutePipeline` even
though the traversal whitelist does not. -/
def parse_task_details (task_type : Json) (obj : Json) : Option String :=
  if Json.eqStr task_type "Lookup" then ParseLookup.parse obj
  else if Json.eqStr task_type "IfCondition" then ParseIfCondition.parse obj
  else if Json.eqStr task_type "SqlServerStoredProcedure" then ParseSPROC.parse obj
  else if Json.eqStr task_type "WebActivity" then ParseWebActivity.parse obj
  else if Json.eqStr task_type "Wait" then ParseWaitActivity.parse obj
  else if Json.eqStr task_type "Delete" then ParseDeleteActivity.parse obj
  else if Json.eqStr task_type "ExecutePipeline" then ParseExecutePipeline.parse obj
  else if Json.eqStr task_type "Copy" then ParseCopyActivity.parse obj
  else if Json.eqStr task_type "DatabricksNotebook" then ParseNotebookActivity.parse obj
  else if Json.eqStr task_type "GetMetadata" then ParseGetMetadataActivity.parse obj
  else Option.none

end ADFPipelineDocGenerator

/-! ## The two traversal engines (src/initiator.py lines 899-997, 1032-1041) -/

/-- One extracted table row
(`[pipeline_name, current_task_name, task_type, task_details,
task_dependency_info]`).  `task_type` is appended raw (it is a string on
every realistic input but the code never coerces it). -/
structure Rec where
  pipelineName : String
  taskName : String
  taskType : Json
  details : String
  dependency : String

/-- The generator's mutable state (`__init__`, lines 901-904). -/
structure GenState where
  pipeline_name_flag : Bool
  pipeline_name : String
  table_data : List Rec

mutual

/-- `ADFPipelineDocGenerator.recursive_parsing_Individual` (lines 905-934).
Iterating a dict yields its keys in insertion order; `input_data.get(data)`
re-reads the key just yielded, which is the pair's own value because dict
keys are unique, so the walk is over the (key, value) pairs with the whole
object kept for the `name`/`type`/`dependsOn` lookups.  Iterating a list
recurses only into dict elements; iterating a string visits characters with
no effect (other scalars would raise `TypeError`, unreachable). -/
def recursive_parsing_Individual (input_data : Json) (parent_task_name : String)
    (st : GenState) : GenState :=
  match input_data with
  | .obj fields => rpiFields fields fields parent_task_name Option.none st
  | .arr elems => rpiElems elems parent_task_name st
  | _ => st

def rpiFields (all : JFields) (rest : JFields) (parent_task_name : String)
    (current_task_name : Option String) (st : GenState) : GenState :=
  match rest with
  | .nil => st
  | .cons k v tail =>
    match v with
    | .str s =>
        if k = "name" then
          if st.pipeline_name_flag then
            rpiFields all tail parent_task_name current_task_name
              { st with pipeline_name_flag := false, pipeline_name := s }
          else
            let task_type := all.getD "type" (Json.str "")
            let st' :=
              if containsAnyTask task_type then
                let task_details :=
                  pyOrStr (ADFPipelineDocGenerator.parse_task_details task_type (Json.obj all)) ""
                let task_dependency_info :=
                  pyOrStr (ADFPipelineDocGenerator.parse_dependsOn
                    (all.getD "dependsOn" (Json.str ""))) parent_task_name
                { st with table_data := st.table_data ++
                    [⟨st.pipeline_name, s, task_type, task_details, task_dependency_info⟩] }
              else st
            rpiFields all tail parent_task_name (some s) st'
        else rpiFields all tail parent_task_name current_task_name st
    | .obj _ => rpiFields all tail parent_task_name current_task_name
        (recursive_parsing_Individual v (pyOrStr current_task_name parent_task_name) st)
    | .arr _ => rpiFields all tail parent_task_name current_task_name
        (recursive_parsing_Individual v (pyOrStr current_task_name parent_task_name) st)
    | _ => rpiFields all tail parent_task_name current_task_name st

def rpiElems (elems : JElems) (parent_task_name : String) (st : GenState) : GenState :=
  match elems with
  | .nil => st
  | .cons v tail =>
    match v with
    | .obj _ => rpiElems tail parent_task_name
        (recursive_parsing_Individual v (pyOrStr Option.none parent_task_name) st)
    | _ => rpiElems tail parent_task_name st

end

/-- The templated-name marker of `recursive_parsing` (line 942). -/
def v_type_marker : String := "[concat(parameters(\x27factoryName\x27)"

/-- `name.rfind("'")` as a character index, `-1` when absent. -/
def pyRfindQuote (s : String) : Int :=
  match s.toList.reverse.findIdx? (fun c => c = Char.ofNat 39) with
  | some i => (s.toList.length : Int) - 1 - i
  | Option.none => -1

/-- Python `s[37:endIdx]` (character slice; a negative end counts from the
end of the string). -/
def pySliceFrom37 (s : String) (endIdx : Int) : String :=
  let cs := s.toList
  let n : Int := cs.length
  let e : Int := if endIdx < 0 then n + endIdx else endIdx
  let e2 : Nat := (max 0 (min e n)).toNat
  String.mk ((cs.drop 37).take (e2 - 37))

mutual

/-- `ADFPipelineDocGenerator.recursive_parsing` (lines 936-964), the
envelope-mode traversal: a `name` value containing the
parameter-concatenation marker re-captures `pipeline_name` (fixed offset 37
up to the last quote) — there is no one-shot flag here — while any other
`name` value follows the same record logic as the individual mode. -/
def recursive_parsing (input_data : Json) (parent_task_name : String)
    (st : GenState) : GenState :=
  match input_data with
  | .obj fields => rpFields fields fields parent_task_name Option.none st
  | .arr elems => rpElems elems parent_task_name st
  | _ => st

def rpFields (all : JFields) (rest : JFields) (parent_task_name : String)
    (current_task_name : Option String) (st : GenState) : GenState :=
  match rest with
  | .nil => st
  | .cons k v tail =>
    match v with
    | .str s =>
        if k = "name" then
          if strContains s v_type_marker then
            rpFields all tail parent_task_name current_task_name
              { st with pipeline_name := pySliceFrom37 s (pyRfindQuote s) }
          else
            let task_type := all.getD "type" (Json.str "")
            let st' :=
              if containsAnyTask task_type then
                let task_details :=
                  pyOrStr (ADFPipelineDocGenerator.parse_task_details task_type (Json.obj all)) ""
                let task_dependency_info :=
                  pyOrStr (ADFPipelineDocGenerator.parse_dependsOn
                    (all.getD "dependsOn" (Json.str ""))) parent_task_name
                { st with table_data := st.table_data ++
                    [⟨st.pipeline_name, s, task_type, task_details, task_dependency_info⟩] }
              else st
            rpFields all tail parent_task_name (some s) st'
        else rpFields all tail parent_task_name current_task_name st
    | .obj _ => rpFields all tail parent_task_name current_task_name
        (recursive_parsing v (pyOrStr current_task_name parent_task_name) st)
    | .arr _ => rpFields all tail parent_task_name current_task_name
        (recursive_parsing v (pyOrStr current_task_name parent_task_name) st)
    | _ => rpFields all tail parent_task_name current_task_name st

def rpElems (elems : JElems) (parent_task_name : String) (st : GenState) : GenState :=
  match elems with
  | .nil => st
  | .cons v tail =>
    match v with
    | .obj _ => rpElems tail parent_task_name
        (recursive_parsing v (pyOrStr Option.none parent_task_name) st)
    | _ => rpElems tail parent_task_name st

end

/-- The resources loop of the main program (lines 1035-1039): only
resources whose `type` equals the Data Factory pipeline type string are
parsed (each with ancestor `''`). -/
def runResources (elems : JElems) (st : GenState) : GenState :=
  match elems with
  | .nil => st
  | .cons d tail =>
      runResources tail
        (if Json.eqStr (jget d "type" Json.null) "Microsoft.DataFactory/factories/pipelines"
         then recursive_parsing d "" st
         else st)

/-- The extraction phase of the main program (lines 1032-1041): a document
whose `resources` value is a list is treated as an envelope (one
`recursive_parsing` call per pipeline resource); any other document is
parsed individually.  `doc_gen` starts with the flag set, an empty pipeline
name and an empty table. -/
def runExtraction (json_data : Json) : GenState :=
  match jget json_data "resources" (Json.str "") with
  | .arr elems => runResources elems ⟨true, "", []⟩
  | _ => recursive_parsing_Individual json_data "" ⟨true, "", []⟩


/-- A single-pipeline document holding one `ExecutePipeline` activity. -/
def execPipelineActivity : Json :=
  Json.obj (JFields.cons "name" (Json.str "E1")
    (JFields.cons "type" (Json.str "ExecutePipeline")
      (JFields.cons "typeProperties"
        (Json.obj (JFields.cons "pipeline"
          (Json.obj (JFields.cons "referenceName" (Json.str "child") JFields.nil))
          JFields.nil))
        JFields.nil)))

def execPipelineDoc : Json :=
  Json.obj (JFields.cons "name" (Json.str "PL")
    (JFields.cons "activities" (Json.arr (JElems.cons execPipelineActivity JElems.nil))
      JFields.nil))

/-- C3 (code bug, evaluated at the failing input): a well-formed
`ExecutePipeline` activity node is NOT recorded — the extraction returns an
empty table although the pipeline name was seen — because the traversal
whitelist `tasks` contains no token occurring in the string
"ExecutePipeline".  Yet the dispatcher `parse_task_details` does have an
`ExecutePipeline` branch, which would format this very node's detail text;
that branch is unreachable dead code. -/
theorem executepipeline_node_not_recorded :
    (runExtraction execPipelineDoc).table_data = [] ∧
    (runExtraction execPipelineDoc).pipeline_name = "PL" ∧
    containsAnyTask (Json.str "ExecutePipeline") = false ∧
    ADFPipelineDocGenerator.parse_task_details (Json.str "ExecutePipeline")
      execPipelineActivity = some "Child pipeline Name : child" :=
  ⟨rfl, rfl, rfl, rfl⟩

/-- An envelope-mode pipeline resource whose templated name embeds `p`. -/
def envResource (p : String) : Json :=
  Json.obj (JFields.cons "type" (Json.str "Microsoft.DataFactory/factories/pipelines")
    (JFields.cons "name"
      (Json.str ("[concat(parameters(\x27factoryName\x27), \x27/" ++ p ++ "\x27)]"))
      JFields.nil))

def envDocOne : Json :=
  Json.obj (JFields.cons "resources"
    (Json.arr (JElems.cons (envResource "P1") JElems.nil)) JFields.nil)

def envDocTwo : Json :=
  Json.obj (JFields.cons "resources"
    (Json.arr (JElems.cons (envResource "P1") (JElems.cons (envResource "P2") JElems.nil)))
    JFields.nil)

/-- C4 counterexample: an envelope document with two pipeline resources.
Processing only the first resource captures `pipeline_name = "P1"` (the
first name encountered), but the full run ends with `"P2"`: the second
resource's `name` occurrence re-captures the already-captured pipeline
name, so the capture is NOT one-shot across the whole traversal. -/
theorem pipeline_name_recaptured_in_envelope :
    (runExtraction envDocOne).pipeline_name = "P1" ∧
    (runExtraction envDocTwo).pipeline_name = "P2" ∧ ("P2" : String) ≠ "P1" :=
  ⟨rfl, rfl, by decide⟩

mutual

theorem rpi_flag_pipeline_preserved (input_data : Json) (parent_task_name : String)
    (st : GenState) (h : st.pipeline_name_flag = false) :
    (recursive_parsing_Individual input_data parent_task_name st).pipeline_name_flag = false ∧
    (recursive_parsing_Individual input_data parent_task_name st).pipeline_name =
      st.pipeline_name := by
  cases input_data with
  | obj fields =>
      exact rpiFields_flag_pipeline_preserved fields fields parent_task_name Option.none st h
  | arr elems => exact rpiElems_flag_pipeline_preserved elems parent_task_name st h
  | str s => exact ⟨h, rfl⟩
  | num n => exact ⟨h, rfl⟩
  | bool b => exact ⟨h, rfl⟩
  | null => exact ⟨h, rfl⟩

theorem rpiFields_flag_pipeline_preserved (all rest : JFields) (parent_task_name : String)
    (current_task_name : Option String) (st : GenState) (h : st.pipeline_name_flag = false) :
    (rpiFields all rest parent_task_name current_task_name st).pipeline_name_flag = false ∧
    (rpiFields all rest parent_task_name current_task_name st).pipeline_name =
      st.pipeline_name := by
  cases rest with
  | nil => exact ⟨h, rfl⟩
  | cons k v tail =>
      cases v with
      | str s =>
          simp only [rpiFields]
          by_cases hk : k = "name"
          · rw [if_pos hk]
            simp only [h, Bool.false_eq_true, if_false]
            split
            · exact rpiFields_flag_pipeline_preserved all tail parent_task_name (some s) _ rfl
            · exact rpiFields_flag_pipeline_preserved all tail parent_task_name (some s) st h
          · rw [if_neg hk]
            exact rpiFields_flag_pipeline_preserved all tail parent_task_name
              current_task_name st h
      | obj f2 =>
          obtain ⟨h2f, h2p⟩ := rpi_flag_pipeline_preserved (Json.obj f2)
            (pyOrStr current_task_name parent_task_name) st h
          obtain ⟨h3f, h3p⟩ := rpiFields_flag_pipeline_preserved all tail parent_task_name
            current_task_name _ h2f
          exact ⟨h3f, h3p.trans h2p⟩
      | arr e2 =>
          obtain ⟨h2f, h2p⟩ := rpi_flag_pipeline_preserved (Json.arr e2)
            (pyOrStr current_task_name parent_task_name) st h
          obtain ⟨h3f, h3p⟩ := rpiFields_flag_pipeline_preserved all tail parent_task_name
            current_task_name _ h2f
          exact ⟨h3f, h3p.trans h2p⟩
      | num n =>
          exact rpiFields_flag_pipeline_preserved all tail parent_task_name
            current_task_name st h
      | bool b =>
          exact rpiFields_flag_pipeline_preserved all tail parent_task_name
            current_task_name st h
      | null =>
          exact rpiFields_flag_pipeline_preserved all tail parent_task_name
            current_task_name st h

theorem rpiElems_flag_pipeline_preserved (elems : JElems) (parent_task_name : String)
    (st : GenState) (h : st.pipeline_name_flag = false) :
    (rpiElems elems parent_task_name st).pipeline_name_flag = false ∧
    (rpiElems elems parent_task_name st).pipeline_name = st.pipeline_name := by
  cases elems with
  | nil => exact ⟨h, rfl⟩
  | cons v tail =>
      cases v with
      | obj f2 =>
          obtain ⟨h2f, h2p⟩ := rpi_flag_pipeline_preserved (Json.obj f2)
            (pyOrStr Option.none parent_task_name) st h
          obtain ⟨h3f, h3p⟩ := rpiElems_flag_pipeline_preserved tail parent_task_name _ h2f
          exact ⟨h3f, h3p.trans h2p⟩
      | str s => exact rpiElems_flag_pipeline_preserved tail parent_task_name st h
      | num n => exact rpiElems_flag_pipeline_preserved tail parent_task_name st h
      | bool b => exact rpiElems_flag_pipeline_preserved tail parent_task_name st h
      | null => exact rpiElems_flag_pipeline_preserved tail parent_task_name st h
      | arr e2 => exact rpiElems_flag_pipeline_preserved tail parent_task_name st h

end

/-- C4 (amended): in individual mode the capture IS one-shot: when the
document's first key is a string-valued `name`, that first name becomes
`pipeline_name` whatever follows, and once the one-shot flag is cleared no
later `name` occurrence ever changes `pipeline_name`.  (In envelope mode —
`recursive_parsing` — every marker-bearing name re-captures it, once per
pipeline resource; see the counterexample.) -/
theorem pipeline_name_captured_once_individual :
    (∀ (pn : String) (rest : JFields) (p old : String) (rows : List Rec),
      (recursive_parsing_Individual (Json.obj (JFields.cons "name" (Json.str pn) rest)) p
        ⟨true, old, rows⟩).pipeline_name = pn) ∧
    (∀ (j : Json) (p : String) (st : GenState), st.pipeline_name_flag = false →
      (recursive_parsing_Individual j p st).pipeline_name = st.pipeline_name) := by
  constructor
  · intro pn rest p old rows
    have h1 : recursive_parsing_Individual (Json.obj (JFields.cons "name" (Json.str pn) rest))
        p ⟨true, old, rows⟩ =
        rpiFields (JFields.cons "name" (Json.str pn) rest) rest p Option.none
          ⟨false, pn, rows⟩ := rfl
    rw [h1]
    exact (rpiFields_flag_pipeline_preserved (JFields.cons "name" (Json.str pn) rest) rest p
      Option.none ⟨false, pn, rows⟩ rfl).2
  · intro j p st h
    exact (rpi_flag_pipeline_preserved j p st h).2

/-- Witness for the amended C4 theorem: the first name of a small document
is captured, and with the flag already cleared a further `name` occurrence
leaves the stored pipeline name untouched. -/
theorem pipeline_name_captured_once_individual_witness :
    (recursive_parsing_Individual (Json.obj (JFields.cons "name" (Json.str "PL") JFields.nil))
      "" ⟨true, "", []⟩).pipeline_name = "PL" ∧
    (recursive_parsing_Individual (Json.obj (JFields.cons "name" (Json.str "X") JFields.nil))
      "" ⟨false, "KEPT", []⟩).pipeline_name = "KEPT" :=
  ⟨pipeline_name_captured_once_individual.1 "PL" JFields.nil "" "" [],
   pipeline_name_captured_once_individual.2
     (Json.obj (JFields.cons "name" (Json.str "X") JFields.nil)) "" ⟨false, "KEPT", []⟩ rfl⟩

/-! ## C2: dependency attribution vs the nearest enclosing named ancestor

`specWalkTop`/`specWalk` below are the spec's reading of the extractor:
dependency attribution "flows from the nearest enclosing named node" — when
an activity has no (or an empty) `dependsOn`, its record's dependency is
the name of the innermost enclosing object that has a (non-empty)
string-valued `name`, independent of where that `name` key sits among its
siblings; the document root's name is consumed as the pipeline name and
names nothing.  The record-emission details (whitelist, formatters,
explicit-`dependsOn` text) are shared with the code, since the claim is
only about the ancestor attribution. -/

/-- The object's string-valued name, if any (`d.get('name')`). -/
def fieldsGetStrName (fs : JFields) : Option String :=
  match JFields.getD fs "name" Json.null with
  | .str s => some s
  | _ => Option.none

mutual

/-- Modelled from the spec: emit this object's record (if it is a
recognized activity node) with its dependency falling back to `ancestor`,
then walk the children with the context updated to this object's own
(non-empty) name — the nearest enclosing named node — wherever the `name`
key sits. -/
def specWalk (j : Json) (ancestor : String) (pn : String) : List Rec :=
  match j with
  | .obj fs =>
      let selfRec : List Rec :=
        match fieldsGetStrName fs with
        | some n =>
            let task_type := fs.getD "type" (Json.str "")
            if containsAnyTask task_type then
              [⟨pn, n, task_type,
                pyOrStr (ADFPipelineDocGenerator.parse_task_details task_type (Json.obj fs)) "",
                pyOrStr (ADFPipelineDocGenerator.parse_dependsOn
                  (fs.getD "dependsOn" (Json.str ""))) ancestor⟩]
            else []
        | Option.none => []
      let ctx :=
        match fieldsGetStrName fs with
        | some n => if n = "" then ancestor else n
        | Option.none => ancestor
      selfRec ++ specWalkFields fs ctx pn
  | .arr es => specWalkElems es ancestor pn
  | _ => []

def specWalkFields : JFields → String → String → List Rec
  | .nil, _, _ => []
  | .cons _ v tail, ctx, pn =>
      (match v with
       | .obj _ => specWalk v ctx pn
       | .arr _ => specWalk v ctx pn
       | _ => []) ++ specWalkFields tail ctx pn

def specWalkElems : JElems → String → String → List Rec
  | .nil, _, _ => []
  | .cons v tail, ancestor, pn =>
      (match v with
       | .obj _ => specWalk v ancestor pn
       | _ => []) ++ specWalkElems tail ancestor pn

end

def notStrVal : Json → Bool
  | Json.str _ => false
  | _ => true

/-- No field is a string-valued `name` (so the traversal's name branch
never fires while walking these fields). -/
def noStrNamePair : JFields → Bool
  | .nil => true
  | .cons k v rest => (if k = "name" then notStrVal v else true) && noStrNamePair rest

/-- Python dict keys are unique; JSON objects built by `json.load` satisfy
this. -/
def keysNodup : JFields → Bool
  | .nil => true
  | .cons k _ rest => !(JFields.hasKey rest k) && keysNodup rest

def headIsStrName : JFields → Bool
  | .cons k (Json.str _) _ => if k = "name" then true else false
  | _ => false

/-- When an object has a string-valued `name`, that name is its first key
(so the traversal sees the name before descending into the children). -/
def nameFirstOk (fs : JFields) : Bool :=
  match fieldsGetStrName fs with
  | some _ => headIsStrName fs
  | Option.none => true

mutual

def wfJson : Json → Bool
  | .obj fs => nameFirstOk fs && keysNodup fs && wfFields fs
  | .arr es => wfElems es
  | _ => true

def wfFields : JFields → Bool
  | .nil => true
  | .cons _ v rest => wfJson v && wfFields rest

def wfElems : JElems → Bool
  | .nil => true
  | .cons v rest => wfJson v && wfElems rest

end

theorem headIsStrName_shape (fs : JFields) (h : headIsStrName fs = true) :
    ∃ s tail, fs = JFields.cons "name" (Json.str s) tail := by
  cases fs with
  | nil => exact absurd h (by simp [headIsStrName])
  | cons k v tail =>
      cases v with
      | str s =>
          by_cases hk : k = "name"
          · exact ⟨s, tail, by rw [hk]⟩
          · simp [headIsStrName, hk] at h
      | num m => simp [headIsStrName] at h
      | bool b => simp [headIsStrName] at h
      | null => simp [headIsStrName] at h
      | obj f2 => simp [headIsStrName] at h
      | arr e2 => simp [headIsStrName] at h

theorem nameFirst_shape (fs : JFields) (n : String) (h1 : nameFirstOk fs = true)
    (h2 : fieldsGetStrName fs = some n) :
    ∃ tail, fs = JFields.cons "name" (Json.str n) tail := by
  have hh : headIsStrName fs = true := by
    unfold nameFirstOk at h1
    rw [h2] at h1
    exact h1
  obtain ⟨s, tail, hfs⟩ := headIsStrName_shape fs hh
  subst hfs
  have h3 : fieldsGetStrName (JFields.cons "name" (Json.str s) tail) = some s := rfl
  rw [h3] at h2
  injection h2 with h4
  exact ⟨tail, by rw [h4]⟩

theorem noStrName_of_not_hasKey (fs : JFields) (h : fs.hasKey "name" = false) :
    noStrNamePair fs = true := by
  cases fs with
  | nil => rfl
  | cons k v rest =>
      rw [JFields.hasKey] at h
      by_cases hk : ("name" : String) = k
      · rw [if_pos hk] at h
        exact absurd h (by simp)
      · rw [if_neg hk] at h
        have hk2 : ¬(k = "name") := fun he => hk he.symm
        rw [noStrNamePair, if_neg hk2, noStrName_of_not_hasKey rest h]
        rfl

theorem noStrName_of_nodup_noneName (fs : JFields) (hnd : keysNodup fs = true)
    (hn : fieldsGetStrName fs = Option.none) : noStrNamePair fs = true := by
  cases fs with
  | nil => rfl
  | cons k v rest =>
      rw [keysNodup, Bool.and_eq_true] at hnd
      by_cases hk : k = "name"
      · subst hk
        rw [noStrNamePair]
        have hv : notStrVal v = true := by
          cases v with
          | str s =>
              have h3 : fieldsGetStrName (JFields.cons "name" (Json.str s) rest) = some s := rfl
              rw [h3] at hn
              exact absurd hn (by simp)
          | num m => rfl
          | bool b => rfl
          | null => rfl
          | obj f2 => rfl
          | arr e2 => rfl
        rw [if_pos rfl, hv]
        have hrest : rest.hasKey "name" = false := by
          have := hnd.1
          rwa [Bool.not_eq_true'] at this
        rw [noStrName_of_not_hasKey rest hrest]
        rfl
      · have hgd : fieldsGetStrName rest = Option.none := by
          have hne : ¬(("name" : String) = k) := fun he => hk he.symm
          rw [fieldsGetStrName, JFields.getD, if_neg hne] at hn
          rw [fieldsGetStrName]
          exact hn
        rw [noStrNamePair, if_neg hk, noStrName_of_nodup_noneName rest hnd.2 hgd]
        rfl

/-- The record that `rpiFields` appends when the name branch recognises an
activity (also the record `specWalk` emits, with `p` the ancestor used for
the dependency fallback). -/
def emittedRec (all : JFields) (n p pn : String) : Rec :=
  ⟨pn, n, all.getD "type" (Json.str ""),
   pyOrStr (ADFPipelineDocGenerator.parse_task_details (all.getD "type" (Json.str ""))
     (Json.obj all)) "",
   pyOrStr (ADFPipelineDocGenerator.parse_dependsOn (all.getD "dependsOn" (Json.str ""))) p⟩

mutual

theorem rpi_eq_specWalk (j : Json) (p pn : String) (rows : List Rec)
    (hwf : wfJson j = true) :
    recursive_parsing_Individual j p ⟨false, pn, rows⟩ =
      ⟨false, pn, rows ++ specWalk j p pn⟩ := by
  cases j with
  | str s => simp [recursive_parsing_Individual, specWalk]
  | num m => simp [recursive_parsing_Individual, specWalk]
  | bool b => simp [recursive_parsing_Individual, specWalk]
  | null => simp [recursive_parsing_Individual, specWalk]
  | arr es => exact rpiElems_eq_specWalkElems es p pn rows hwf
  | obj fs =>
      have hw : (nameFirstOk fs && keysNodup fs && wfFields fs) = true := hwf
      rw [Bool.and_eq_true, Bool.and_eq_true] at hw
      cases hn : fieldsGetStrName fs with
      | none =>
          have hns := noStrName_of_nodup_noneName fs hw.1.2 hn
          have hL : recursive_parsing_Individual (Json.obj fs) p ⟨false, pn, rows⟩ =
              rpiFields fs fs p Option.none ⟨false, pn, rows⟩ := rfl
          rw [hL, rpiFields_eq_specWalkFields fs fs p pn Option.none rows hns hw.2]
          have hsw : specWalk (Json.obj fs) p pn = specWalkFields fs p pn := by
            rw [specWalk, hn]
            simp
          rw [hsw]
          rfl
      | some n =>
          obtain ⟨tail, hfs⟩ := nameFirst_shape fs n hw.1.1 hn
          subst hfs
          have hkey : tail.hasKey "name" = false := by
            have h2 := hw.1.2
            rw [keysNodup, Bool.and_eq_true] at h2
            have := h2.1
            rwa [Bool.not_eq_true'] at this
          have hns_tail := noStrName_of_not_hasKey tail hkey
          have hwtail : wfFields tail = true := by
            have h2 : (wfJson (Json.str n) && wfFields tail) = true := hw.2
            rw [Bool.and_eq_true] at h2
            exact h2.2
          cases hct : containsAnyTask
              (JFields.getD (JFields.cons "name" (Json.str n) tail) "type" (Json.str "")) with
          | false =>
              have hstep : recursive_parsing_Individual
                  (Json.obj (JFields.cons "name" (Json.str n) tail)) p ⟨false, pn, rows⟩ =
                  rpiFields (JFields.cons "name" (Json.str n) tail) tail p (some n)
                    ⟨false, pn, rows⟩ := by
                show rpiFields (JFields.cons "name" (Json.str n) tail)
                  (JFields.cons "name" (Json.str n) tail) p Option.none
                  ⟨false, pn, rows⟩ = _
                simp [rpiFields, hct]
              rw [hstep, rpiFields_eq_specWalkFields
                (JFields.cons "name" (Json.str n) tail) tail p pn (some n) rows hns_tail hwtail]
              have hsw : specWalk (Json.obj (JFields.cons "name" (Json.str n) tail)) p pn =
                  specWalkFields tail (pyOrStr (some n) p) pn := by
                have hn2 : fieldsGetStrName (JFields.cons "name" (Json.str n) tail) =
                    some n := rfl
                rw [specWalk, hn2]
                simp [hct, specWalkFields, pyOrStr]
              rw [hsw]
          | true =>
              have hstep : recursive_parsing_Individual
                  (Json.obj (JFields.cons "name" (Json.str n) tail)) p ⟨false, pn, rows⟩ =
                  rpiFields (JFields.cons "name" (Json.str n) tail) tail p (some n)
                    ⟨false, pn, rows ++
                      [emittedRec (JFields.cons "name" (Json.str n) tail) n p pn]⟩ := by
                show rpiFields (JFields.cons "name" (Json.str n) tail)
                  (JFields.cons "name" (Json.str n) tail) p Option.none
                  ⟨false, pn, rows⟩ = _
                simp [rpiFields, hct, emittedRec]
              rw [hstep, rpiFields_eq_specWalkFields
                (JFields.cons "name" (Json.str n) tail) tail p pn (some n) _ hns_tail hwtail]
              have hsw : specWalk (Json.obj (JFields.cons "name" (Json.str n) tail)) p pn =
                  emittedRec (JFields.cons "name" (Json.str n) tail) n p pn ::
                    specWalkFields tail (pyOrStr (some n) p) pn := by
                have hn2 : fieldsGetStrName (JFields.cons "name" (Json.str n) tail) =
                    some n := rfl
                rw [specWalk, hn2]
                simp [hct, specWalkFields, pyOrStr, emittedRec]
              rw [hsw]
              simp
termination_by sizeOf j
decreasing_by all_goals subst_vars; all_goals simp; all_goals omega

theorem rpiFields_eq_specWalkFields (all rest : JFields) (p pn : String)
    (c : Option String) (rows : List Rec)
    (hns : noStrNamePair rest = true) (hwf : wfFields rest = true) :
    rpiFields all rest p c ⟨false, pn, rows⟩ =
      ⟨false, pn, rows ++ specWalkFields rest (pyOrStr c p) pn⟩ := by
  cases rest with
  | nil => simp [rpiFields, specWalkFields]
  | cons k v tail =>
      rw [noStrNamePair, Bool.and_eq_true] at hns
      rw [wfFields, Bool.and_eq_true] at hwf
      cases v with
      | str s =>
          have hk : ¬(k = "name") := by
            by_cases hk0 : k = "name"
            · rw [if_pos hk0] at hns
              have := hns.1
              simp [notStrVal] at this
            · exact hk0
          have hstep : rpiFields all (JFields.cons k (Json.str s) tail) p c
              ⟨false, pn, rows⟩ = rpiFields all tail p c ⟨false, pn, rows⟩ := by
            simp [rpiFields, hk]
          rw [hstep, rpiFields_eq_specWalkFields all tail p pn c rows hns.2 hwf.2]
          have hsw : specWalkFields (JFields.cons k (Json.str s) tail) (pyOrStr c p) pn =
              specWalkFields tail (pyOrStr c p) pn := by
            simp [specWalkFields]
          rw [hsw]
      | obj f2 =>
          have hstep : rpiFields all (JFields.cons k (Json.obj f2) tail) p c
              ⟨false, pn, rows⟩ = rpiFields all tail p c
                (recursive_parsing_Individual (Json.obj f2) (pyOrStr c p)
                  ⟨false, pn, rows⟩) := by
            simp [rpiFields]
          rw [hstep, rpi_eq_specWalk (Json.obj f2) (pyOrStr c p) pn rows hwf.1,
            rpiFields_eq_specWalkFields all tail p pn c _ hns.2 hwf.2]
          have hsw : specWalkFields (JFields.cons k (Json.obj f2) tail) (pyOrStr c p) pn =
              specWalk (Json.obj f2) (pyOrStr c p) pn ++
                specWalkFields tail (pyOrStr c p) pn := by
            simp [specWalkFields]
          rw [hsw]
          simp
      | arr e2 =>
          have hstep : rpiFields all (JFields.cons k (Json.arr e2) tail) p c
              ⟨false, pn, rows⟩ = rpiFields all tail p c
                (recursive_parsing_Individual (Json.arr e2) (pyOrStr c p)
                  ⟨false, pn, rows⟩) := by
            simp [rpiFields]
          rw [hstep, rpi_eq_specWalk (Json.arr e2) (pyOrStr c p) pn rows hwf.1,
            rpiFields_eq_specWalkFields all tail p pn c _ hns.2 hwf.2]
          have hsw : specWalkFields (JFields.cons k (Json.arr e2) tail) (pyOrStr c p) pn =
              specWalk (Json.arr e2) (pyOrStr c p) pn ++
                specWalkFields tail (pyOrStr c p) pn := by
            simp [specWalkFields]
          rw [hsw]
          simp
      | num m =>
          have hstep : rpiFields all (JFields.cons k (Json.num m) tail) p c
              ⟨false, pn, rows⟩ = rpiFields all tail p c ⟨false, pn, rows⟩ := by
            simp [rpiFields]
          rw [hstep, rpiFields_eq_specWalkFields all tail p pn c rows hns.2 hwf.2]
          have hsw : specWalkFields (JFields.cons k (Json.num m) tail) (pyOrStr c p) pn =
              specWalkFields tail (pyOrStr c p) pn := by
            simp [specWalkFields]
          rw [hsw]
      | bool b =>
          have hstep : rpiFields all (JFields.cons k (Json.bool b) tail) p c
              ⟨false, pn, rows⟩ = rpiFields all tail p c ⟨false, pn, rows⟩ := by
            simp [rpiFields]
          rw [hstep, rpiFields_eq_specWalkFields all tail p pn c rows hns.2 hwf.2]
          have hsw : specWalkFields (JFields.cons k (Json.bool b) tail) (pyOrStr c p) pn =
              specWalkFields tail (pyOrStr c p) pn := by
            simp [specWalkFields]
          rw [hsw]
      | null =>
          have hstep : rpiFields all (JFields.cons k Json.null tail) p c
              ⟨false, pn, rows⟩ = rpiFields all tail p c ⟨false, pn, rows⟩ := by
            simp [rpiFields]
          rw [hstep, rpiFields_eq_specWalkFields all tail p pn c rows hns.2 hwf.2]
          have hsw : specWalkFields (JFields.cons k Json.null tail) (pyOrStr c p) pn =
              specWalkFields tail (pyOrStr c p) pn := by
            simp [specWalkFields]
          rw [hsw]
termination_by sizeOf rest
decreasing_by all_goals subst_vars; all_goals simp; all_goals omega

theorem rpiElems_eq_specWalkElems (es : JElems) (p pn : String) (rows : List Rec)
    (hwf : wfElems es = true) :
    rpiElems es p ⟨false, pn, rows⟩ = ⟨false, pn, rows ++ specWalkElems es p pn⟩ := by
  cases es with
  | nil => simp [rpiElems, specWalkElems]
  | cons v tail =>
      rw [wfElems, Bool.and_eq_true] at hwf
      cases v with
      | obj f2 =>
          have hstep : rpiElems (JElems.cons (Json.obj f2) tail) p ⟨false, pn, rows⟩ =
              rpiElems tail p
                (recursive_parsing_Individual (Json.obj f2) (pyOrStr Option.none p)
                  ⟨false, pn, rows⟩) := by
            simp [rpiElems]
          rw [hstep, rpi_eq_specWalk (Json.obj f2) (pyOrStr Option.none p) pn rows hwf.1,
            rpiElems_eq_specWalkElems tail p pn _ hwf.2]
          have hsw : specWalkElems (JElems.cons (Json.obj f2) tail) p pn =
              specWalk (Json.obj f2) p pn ++ specWalkElems tail p pn := by
            simp [specWalkElems]
          rw [hsw]
          have hp : pyOrStr Option.none p = p := rfl
          rw [hp]
          simp
      | str s =>
          have hstep : rpiElems (JElems.cons (Json.str s) tail) p ⟨false, pn, rows⟩ =
              rpiElems tail p ⟨false, pn, rows⟩ := by
            simp [rpiElems]
          rw [hstep, rpiElems_eq_specWalkElems tail p pn rows hwf.2]
          have hsw : specWalkElems (JElems.cons (Json.str s) tail) p pn =
              specWalkElems tail p pn := by
            simp [specWalkElems]
          rw [hsw]
      | num m =>
          have hstep : rpiElems (JElems.cons (Json.num m) tail) p ⟨false, pn, rows⟩ =
              rpiElems tail p ⟨false, pn, rows⟩ := by
            simp [rpiElems]
          rw [hstep, rpiElems_eq_specWalkElems tail p pn rows hwf.2]
          have hsw : specWalkElems (JElems.cons (Json.num m) tail) p pn =
              specWalkElems tail p pn := by
            simp [specWalkElems]
          rw [hsw]
      | bool b =>
          have hstep : rpiElems (JElems.cons (Json.bool b) tail) p ⟨false, pn, rows⟩ =
              rpiElems tail p ⟨false, pn, rows⟩ := by
            simp [rpiElems]
          rw [hstep, rpiElems_eq_specWalkElems tail p pn rows hwf.2]
          have hsw : specWalkElems (JElems.cons (Json.bool b) tail) p pn =
              specWalkElems tail p pn := by
            simp [specWalkElems]
          rw [hsw]
      | null =>
          have hstep : rpiElems (JElems.cons Json.null tail) p ⟨false, pn, rows⟩ =
              rpiElems tail p ⟨false, pn, rows⟩ := by
            simp [rpiElems]
          rw [hstep, rpiElems_eq_specWalkElems tail p pn rows hwf.2]
          have hsw : specWalkElems (JElems.cons Json.null tail) p pn =
              specWalkElems tail p pn := by
            simp [specWalkElems]
          rw [hsw]
      | arr e2 =>
          have hstep : rpiElems (JElems.cons (Json.arr e2) tail) p ⟨false, pn, rows⟩ =
              rpiElems tail p ⟨false, pn, rows⟩ := by
            simp [rpiElems]
          rw [hstep, rpiElems_eq_specWalkElems tail p pn rows hwf.2]
          have hsw : specWalkElems (JElems.cons (Json.arr e2) tail) p pn =
              specWalkElems tail p pn := by
            simp [specWalkElems]
          rw [hsw]
termination_by sizeOf es
decreasing_by all_goals subst_vars; all_goals simp; all_goals omega

end

/-- C2 (amended): for documents whose objects carry their string-valued
`name` as their first key (and whose keys are unique, as Python dicts
guarantee), the individual-mode extraction agrees exactly with the
spec-side walk `specWalkFields`, in which every record of a node with an
absent or empty `dependsOn` carries as its dependency the name of the
nearest enclosing named ancestor below the root — the root's own name being
consumed as the pipeline name, and the fallback being the empty initial
ancestor.  (Without the name-first ordering the claim is false: see the
counterexample.) -/
theorem dependency_is_nearest_named_ancestor (pn : String) (rest : JFields)
    (hwf : wfJson (Json.obj (JFields.cons "name" (Json.str pn) rest)) = true) :
    recursive_parsing_Individual (Json.obj (JFields.cons "name" (Json.str pn) rest)) ""
      ⟨true, "", []⟩ = ⟨false, pn, specWalkFields rest "" pn⟩ := by
  have hstep : recursive_parsing_Individual
      (Json.obj (JFields.cons "name" (Json.str pn) rest)) "" ⟨true, "", []⟩ =
      rpiFields (JFields.cons "name" (Json.str pn) rest) rest "" Option.none
        ⟨false, pn, []⟩ := rfl
  have hw : (nameFirstOk (JFields.cons "name" (Json.str pn) rest) &&
      keysNodup (JFields.cons "name" (Json.str pn) rest) &&
      wfFields (JFields.cons "name" (Json.str pn) rest)) = true := hwf
  rw [Bool.and_eq_true, Bool.and_eq_true] at hw
  have hkey : rest.hasKey "name" = false := by
    have h2 := hw.1.2
    rw [keysNodup, Bool.and_eq_true] at h2
    have := h2.1
    rwa [Bool.not_eq_true'] at this
  have hns := noStrName_of_not_hasKey rest hkey
  have hwtail : wfFields rest = true := by
    have h2 : (wfJson (Json.str pn) && wfFields rest) = true := hw.2
    rw [Bool.and_eq_true] at h2
    exact h2.2
  rw [hstep, rpiFields_eq_specWalkFields (JFields.cons "name" (Json.str pn) rest) rest ""
    pn Option.none [] hns hwtail]
  rfl

/-- A `Wait` activity named A2 with no `dependsOn`. -/
def wA2 : Json :=
  Json.obj (JFields.cons "name" (Json.str "A2")
    (JFields.cons "type" (Json.str "Wait")
      (JFields.cons "typeProperties"
        (Json.obj (JFields.cons "waitTimeInSeconds" (Json.str "5") JFields.nil))
        JFields.nil)))

/-- An `IfCondition` named IF1 enclosing A2, with its `name` key FIRST. -/
def wIF1 : Json :=
  Json.obj (JFields.cons "name" (Json.str "IF1")
    (JFields.cons "type" (Json.str "IfCondition")
      (JFields.cons "typeProperties"
        (Json.obj (JFields.cons "ifTrueActivities"
          (Json.arr (JElems.cons wA2 JElems.nil)) JFields.nil))
        JFields.nil)))

def wRest : JFields :=
  JFields.cons "activities" (Json.arr (JElems.cons wIF1 JElems.nil)) JFields.nil

/-- Witness for the amended C2 theorem: on a well-formed document the run
equals the spec walk, and there A2's record (empty `dependsOn`) carries its
nearest enclosing named ancestor IF1 as its dependency, while IF1 itself —
whose only named ancestor is the root — carries the empty fallback. -/
theorem dependency_is_nearest_named_ancestor_witness :
    wfJson (Json.obj (JFields.cons "name" (Json.str "PL") wRest)) = true ∧
    recursive_parsing_Individual (Json.obj (JFields.cons "name" (Json.str "PL") wRest)) ""
      ⟨true, "", []⟩ = ⟨false, "PL", specWalkFields wRest "" "PL"⟩ ∧
    (specWalkFields wRest "" "PL").map (fun r => (r.taskName, r.dependency)) =
      [("IF1", ""), ("A2", "IF1")] :=
  ⟨rfl, dependency_is_nearest_named_ancestor "PL" wRest rfl, rfl⟩

/-- The same IF1/A2 nesting but with IF1's `name` key placed AFTER its
`typeProperties` key. -/
def cexIF1 : Json :=
  Json.obj (JFields.cons "typeProperties"
    (Json.obj (JFields.cons "ifTrueActivities"
      (Json.arr (JElems.cons wA2 JElems.nil)) JFields.nil))
    (JFields.cons "name" (Json.str "IF1")
      (JFields.cons "type" (Json.str "IfCondition") JFields.nil)))

def cexDoc : Json :=
  Json.obj (JFields.cons "name" (Json.str "PL")
    (JFields.cons "activities" (Json.arr (JElems.cons cexIF1 JElems.nil)) JFields.nil))

/-- C2 counterexample: in `cexDoc` the recognized activity A2 has no
`dependsOn` and its nearest enclosing named ancestor node is IF1 (as the
spec-side walk computes), yet the program records A2's dependency as the
empty string — IF1's `name` key is iterated only after the traversal has
already descended through `typeProperties` — so the claim fails on this
input (the two records are also emitted in the opposite order). -/
theorem nearest_named_ancestor_cex :
    ((runExtraction cexDoc).table_data.map (fun r => (r.taskName, r.dependency))) =
      [("A2", ""), ("IF1", "")] ∧
    ((specWalk cexIF1 "" "PL").map (fun r => (r.taskName, r.dependency))) =
      [("IF1", ""), ("A2", "IF1")] ∧
    ("" : String) ≠ "IF1" :=
  ⟨rfl, rfl, by decide⟩
